import Mathlib

/-!
Verification of the MiroFish local graph-memory core.

This file is a shallow embedding, in Lean 4, of the parts of the MiroFish
backend that the checked claims talk about:

* `backend/app/services/local/local_edge_invalidator.py`
  (`RuleBasedEdgeInvalidator`),
* `backend/app/services/local/local_graph_store.py`
  (entity/relation upsert, edge invalidation, stable entity uuids),
* `backend/app/services/local/local_graph_memory_updater.py`
  (activity counters, worker loop, duplicate guard, relation processing),
* `backend/app/services/local_entity_resolver.py`
  (string normalisation, difflib-style similarity, cached resolution),
* `backend/app/utils/llm_client.py`, `backend/app/utils/openai_rotation.py`
  and `backend/scripts/rotating_openai_model.py`
  (JSON extraction, `chat_json` error behaviour, model rotation).

Python strings become Lean `String`s, Python floats become exact rationals,
dicts become association lists, and the Neo4j store becomes a list of records
updated by pure functions mirroring the Cypher statements the code issues.
-/

set_option maxRecDepth 4000

/-! ## Basic string helpers (Python `str` operations) -/

/-- Python `str.lower` (ASCII case mapping, which covers every name the
rule tables and claims use). -/
def lowerString (s : String) : String := String.mk (s.data.map Char.toLower)

/-- Python `str.upper` (ASCII case mapping). -/
def upperString (s : String) : String := String.mk (s.data.map Char.toUpper)

/-- Strip leading and trailing whitespace from a character list. -/
def stripChars (cs : List Char) : List Char :=
  ((cs.dropWhile Char.isWhitespace).reverse.dropWhile Char.isWhitespace).reverse

/-- Python `str.strip()`. -/
def stripString (s : String) : String := String.mk (stripChars s.data)

/-- Does `pat` occur as a prefix of `cs` (character-exact)? -/
def prefixMatch : List Char → List Char → Bool
  | [], _ => true
  | _ :: _, [] => false
  | a :: as, b :: bs => a = b && prefixMatch as bs

/-- Does `needle` occur as a contiguous sublist of the second argument?
Python's `needle in hay` on strings. -/
def subOccurs (needle : List Char) : List Char → Bool
  | [] => needle.isEmpty
  | c :: t => prefixMatch needle (c :: t) || subOccurs needle t

/-- Python `needle in hay` for strings. -/
def strContainsSub (hay needle : String) : Bool := subOccurs needle.data hay.data

/-! ## Rule-based edge invalidator
(`RuleBasedEdgeInvalidator` in `local_edge_invalidator.py`) -/

/-- The dictionaries handed to `detect_contradictions`: a new edge or an
existing edge, with the keys the rule-based invalidator reads.  For existing
edges the updater always sets `relation_name` (from the stored `name`). -/
structure EdgeView where
  uuid : String
  source_name : String
  target_name : String
  relation_name : String
  fact : String
deriving DecidableEq

/-- The `CONTRADICTING_RELATIONS` table: `relation -> set of mutually
exclusive relations`, transcribed entry by entry from the source. -/
def CONTRADICTING_RELATIONS : String → List String
  | "LIKES" => ["DISLIKES", "HATES", "OPPOSES"]
  | "DISLIKES" => ["LIKES", "LOVES", "SUPPORTS"]
  | "LOVES" => ["HATES", "DISLIKES"]
  | "HATES" => ["LOVES", "LIKES"]
  | "SUPPORTS" => ["OPPOSES", "AGAINST", "REJECTS", "CRITICIZES"]
  | "OPPOSES" => ["SUPPORTS", "FOR", "ENDORSES", "ADVOCATES"]
  | "TRUSTS" => ["DISTRUSTS", "MISTRUSTS"]
  | "DISTRUSTS" => ["TRUSTS"]
  | "ENDORSES" => ["OPPOSES", "REJECTS", "CRITICIZES"]
  | "REJECTS" => ["ACCEPTS", "ENDORSES", "SUPPORTS"]
  | "ACCEPTS" => ["REJECTS", "REFUSES"]
  | "REFUSES" => ["ACCEPTS", "AGREES_TO"]
  | "AGREES_WITH" => ["DISAGREES_WITH", "OPPOSES"]
  | "DISAGREES_WITH" => ["AGREES_WITH", "SUPPORTS"]
  | "CRITICIZES" => ["PRAISES", "SUPPORTS", "ENDORSES"]
  | "PRAISES" => ["CRITICIZES", "OPPOSES"]
  | "FOLLOWS" => ["UNFOLLOWS", "BLOCKS"]
  | "UNFOLLOWS" => ["FOLLOWS"]
  | "BLOCKS" => ["FOLLOWS", "UNBLOCKS"]
  | "UNBLOCKS" => ["BLOCKS"]
  | "JOINED" => ["LEFT", "QUIT", "RESIGNED_FROM"]
  | "LEFT" => ["JOINED", "REJOINED"]
  | "QUIT" => ["JOINED", "REJOINED"]
  | "RESIGNED_FROM" => ["JOINED", "HIRED_BY"]
  | "HIRED_BY" => ["FIRED_FROM", "RESIGNED_FROM", "LEFT"]
  | "FIRED_FROM" => ["HIRED_BY", "WORKS_FOR"]
  | "OWNS" => ["SOLD", "DIVESTED", "LOST"]
  | "SOLD" => ["OWNS", "ACQUIRED", "BOUGHT"]
  | "ACQUIRED" => ["SOLD", "DIVESTED"]
  | "DIVESTED" => ["ACQUIRED", "OWNS", "INVESTED_IN"]
  | "INVESTED_IN" => ["DIVESTED_FROM", "WITHDREW_FROM"]
  | "DIVESTED_FROM" => ["INVESTED_IN", "INVESTS_IN"]
  | "WITHDREW_FROM" => ["INVESTED_IN", "INVESTS_IN"]
  | "INVESTS_IN" => ["DIVESTED_FROM", "WITHDREW_FROM"]
  | "COLLABORATES_WITH" => ["COMPETES_WITH", "CONFLICTS_WITH"]
  | "COMPETES_WITH" => ["COLLABORATES_WITH", "PARTNERS_WITH"]
  | "PARTNERS_WITH" => ["COMPETES_WITH", "BREAKS_WITH"]
  | "WORKS_WITH" => ["CONFLICTS_WITH", "OPPOSES"]
  | "CONFLICTS_WITH" => ["COLLABORATES_WITH", "WORKS_WITH"]
  | "STARTED" => ["STOPPED", "ENDED", "CANCELLED"]
  | "STOPPED" => ["STARTED", "RESUMED", "CONTINUED"]
  | "ENDED" => ["STARTED", "BEGAN"]
  | "BEGAN" => ["ENDED", "STOPPED"]
  | "CANCELLED" => ["CONFIRMED", "APPROVED"]
  | "CONFIRMED" => ["CANCELLED", "DENIED"]
  | "APPROVED" => ["REJECTED", "DENIED", "CANCELLED"]
  | "DENIED" => ["APPROVED", "CONFIRMED"]
  | _ => []

/-- The `SEMANTIC_CONTRADICTION_PAIRS` table (positive lexicon, negative
lexicon), transcribed from the source. -/
def SEMANTIC_CONTRADICTION_PAIRS : List (List String × List String) :=
  [ (["支持", "赞成", "同意", "support", "supports", "favor", "approve", "endorse"],
     ["反对", "不赞成", "不同意", "oppose", "opposes", "against", "reject", "disapprove"]),
    (["喜欢", "喜爱", "爱", "like", "likes", "love", "loves", "enjoy"],
     ["讨厌", "厌恶", "恨", "hate", "hates", "dislike", "dislikes", "detest"]),
    (["信任", "相信", "trust", "trusts", "believe", "believes"],
     ["不信任", "怀疑", "distrust", "distrusts", "doubt", "doubts", "mistrust"]),
    (["合作", "协作", "collaborate", "collaborates", "cooperate", "partner"],
     ["竞争", "对抗", "compete", "competes", "rival", "conflict"]),
    (["接受", "同意", "accept", "accepts", "agree", "agrees"],
     ["拒绝", "否决", "reject", "rejects", "refuse", "refuses", "decline"]),
    (["加入", "join", "joins", "joined", "enter", "entered"],
     ["退出", "离开", "leave", "leaves", "left", "quit", "quits", "exit"]),
    (["买", "购买", "收购", "buy", "buys", "bought", "acquire", "acquires", "acquired"],
     ["卖", "出售", "sell", "sells", "sold", "divest", "divests"]),
    (["开始", "启动", "start", "starts", "started", "begin", "begins", "began", "launch"],
     ["结束", "停止", "stop", "stops", "stopped", "end", "ends", "ended", "terminate"]) ]

/-- `RuleBasedEdgeInvalidator._check_semantic_contradiction` (both facts are
already lowercased by the caller). -/
def checkSemanticContradiction (old_fact new_fact : String) : Bool :=
  SEMANTIC_CONTRADICTION_PAIRS.any fun p =>
    (p.1.any (fun w => strContainsSub old_fact w) && p.2.any (fun w => strContainsSub new_fact w))
      || (p.2.any (fun w => strContainsSub old_fact w) && p.1.any (fun w => strContainsSub new_fact w))

/-- The `for edge in existing_edges` loop of
`RuleBasedEdgeInvalidator.detect_contradictions`, with the new edge's fields
already normalised (`lower`/`upper`) and its contradiction set already
looked up, exactly as the source does before the loop. -/
def detectContradictionsGo (newSource newTarget newRelation newFact : String)
    (contradicting : List String) : List EdgeView → List String
  | [] => []
  | e :: rest =>
    if e.uuid = "" then
      detectContradictionsGo newSource newTarget newRelation newFact contradicting rest
    else if lowerString e.source_name ≠ newSource ∨ lowerString e.target_name ≠ newTarget then
      detectContradictionsGo newSource newTarget newRelation newFact contradicting rest
    else if contradicting.contains (upperString e.relation_name) then
      e.uuid :: detectContradictionsGo newSource newTarget newRelation newFact contradicting rest
    else if upperString e.relation_name = newRelation ∧ newFact ≠ "" ∧ lowerString e.fact ≠ ""
        ∧ checkSemanticContradiction (lowerString e.fact) newFact then
      e.uuid :: detectContradictionsGo newSource newTarget newRelation newFact contradicting rest
    else
      detectContradictionsGo newSource newTarget newRelation newFact contradicting rest

/-- `RuleBasedEdgeInvalidator.detect_contradictions(new_edge, existing_edges)`. -/
def ruleBased_detect_contradictions (new_edge : EdgeView) (existing_edges : List EdgeView) :
    List String :=
  if existing_edges = [] then []
  else
    detectContradictionsGo (lowerString new_edge.source_name) (lowerString new_edge.target_name)
      (upperString new_edge.relation_name) (lowerString new_edge.fact)
      (CONTRADICTING_RELATIONS (upperString new_edge.relation_name)) existing_edges

/-! ## Activity intake (`LocalGraphMemoryUpdater.add_activity`) -/

/-- Modelled from the spec: the `AgentActivity` record (spec section 6) is a
data class the updater imports from a module outside the analysed sources;
only the fields `add_activity` and the worker loop read are kept. -/
structure AgentActivity where
  platform : String
  agent_name : String
  action_type : String
deriving DecidableEq

/-- The updater state that `add_activity` touches: the two counters and the
thread-safe activity queue. -/
structure UpdaterIntake where
  skipped_count : Nat
  total_activities : Nat
  activity_queue : List AgentActivity
deriving DecidableEq

/-- `LocalGraphMemoryUpdater.add_activity`: drop and count `DO_NOTHING`
activities, enqueue and count everything else. -/
def add_activity (st : UpdaterIntake) (a : AgentActivity) : UpdaterIntake :=
  if a.action_type = "DO_NOTHING" then
    { st with skipped_count := st.skipped_count + 1 }
  else
    { st with activity_queue := st.activity_queue ++ [a],
              total_activities := st.total_activities + 1 }

/-- A sequence of `add_activity` calls. -/
def add_activities (st : UpdaterIntake) (acts : List AgentActivity) : UpdaterIntake :=
  acts.foldl add_activity st

/-! ## Worker loop locking (`LocalGraphMemoryUpdater._worker_loop`) -/

/-- `LocalGraphMemoryUpdater.BATCH_SIZE`. -/
def BATCH_SIZE : Nat := 5

/-- The operations one iteration of the worker loop may perform after a
dequeue. -/
inductive WorkerOp where
  | appendToBuffer
  | detachBatch
  | processBatch
  | sleepInterval
deriving DecidableEq

/-- The `buffer[:BATCH_SIZE]` / `buffer[BATCH_SIZE:]` detach performed when a
platform buffer reaches `BATCH_SIZE`. -/
def workerDetach (buffer : List AgentActivity) : List AgentActivity × List AgentActivity :=
  (buffer.take BATCH_SIZE, buffer.drop BATCH_SIZE)

/-- The trace of one `_worker_loop` iteration after an activity arrived,
each operation paired with whether `self._buffer_lock` is held while it
runs.  Transcribed from the `with self._buffer_lock:` block: the append,
the size check, and - when the buffer has reached `BATCH_SIZE` - the
detach, the call to `_process_batch_activities` and the pacing sleep are
all syntactically inside the `with` block. -/
def workerIterationOps (bufferLenAfterAppend : Nat) : List (WorkerOp × Bool) :=
  (WorkerOp.appendToBuffer, true) ::
    (if BATCH_SIZE ≤ bufferLenAfterAppend then
      [(WorkerOp.detachBatch, true), (WorkerOp.processBatch, true),
        (WorkerOp.sleepInterval, true)]
    else [])

/-! ## Stable entity uuids (`_stable_entity_uuid` in `local_graph_store.py`)

`hashlib.sha1` is embedded as a pure SHA-1 over byte lists, and UTF-8
encoding of the key string is spelled out, so `ent_<first-16-hex-chars>`
is computed exactly as the source computes it. -/

/-- Truncate to 32 bits. -/
def w32 (n : Nat) : Nat := n % 4294967296

/-- 32-bit left rotation. -/
def rotl32 (n s : Nat) : Nat := w32 ((n <<< s) ||| (n >>> (32 - s)))

/-- UTF-8 bytes of one character. -/
def utf8Bytes (c : Char) : List Nat :=
  let n := c.toNat
  if n < 128 then [n]
  else if n < 2048 then [192 + n / 64, 128 + n % 64]
  else if n < 65536 then [224 + n / 4096, 128 + (n / 64) % 64, 128 + n % 64]
  else [240 + n / 262144, 128 + (n / 4096) % 64, 128 + (n / 64) % 64, 128 + n % 64]

/-- Python `str.encode("utf-8")` as a list of byte values. -/
def strUtf8 (s : String) : List Nat := s.data.foldr (fun c acc => utf8Bytes c ++ acc) []

/-- Big-endian 4-byte encoding of a 32-bit word. -/
def beBytes4 (n : Nat) : List Nat :=
  [n / 16777216 % 256, n / 65536 % 256, n / 256 % 256, n % 256]

/-- Big-endian 8-byte encoding of the SHA-1 bit length. -/
def beBytes8 (n : Nat) : List Nat :=
  [n / 72057594037927936 % 256, n / 281474976710656 % 256, n / 1099511627776 % 256,
    n / 4294967296 % 256, n / 16777216 % 256, n / 65536 % 256, n / 256 % 256, n % 256]

/-- SHA-1 message padding: `0x80`, zero fill to 56 mod 64, 8-byte bit length. -/
def sha1Pad (msg : List Nat) : List Nat :=
  let len := msg.length
  let zeros := (64 + 55 - len % 64) % 64
  msg ++ [128] ++ List.replicate zeros 0 ++ beBytes8 (8 * len)

/-- Split the padded byte stream into 64-byte blocks. -/
def sha1Blocks (padded : List Nat) : List (List Nat) :=
  (List.range (padded.length / 64)).map (fun i => (padded.drop (64 * i)).take 64)

/-- Big-endian 32-bit words of one 64-byte block. -/
def bytesToWords : List Nat → List Nat
  | b0 :: b1 :: b2 :: b3 :: rest =>
    (b0 * 16777216 + b1 * 65536 + b2 * 256 + b3) :: bytesToWords rest
  | _ => []

/-- Extend 16 words to the 80-word SHA-1 message schedule. -/
def sha1Extend (ws : List Nat) : List Nat :=
  (List.range' 16 64).foldl
    (fun acc i =>
      acc ++ [rotl32 ((acc.getD (i - 3) 0) ^^^ (acc.getD (i - 8) 0) ^^^ (acc.getD (i - 14) 0)
        ^^^ (acc.getD (i - 16) 0)) 1])
    ws

/-- The SHA-1 round function. -/
def sha1F (i b c d : Nat) : Nat :=
  if i < 20 then (b &&& c) ||| ((b ^^^ 4294967295) &&& d)
  else if i < 40 then b ^^^ c ^^^ d
  else if i < 60 then (b &&& c) ||| (b &&& d) ||| (c &&& d)
  else b ^^^ c ^^^ d

/-- The SHA-1 round constants. -/
def sha1K (i : Nat) : Nat :=
  if i < 20 then 1518500249
  else if i < 40 then 1859775393
  else if i < 60 then 2400959708
  else 3395469782

/-- Compress one 64-byte block into the running state. -/
def sha1Compress (h : Nat × Nat × Nat × Nat × Nat) (block : List Nat) :
    Nat × Nat × Nat × Nat × Nat :=
  let w := sha1Extend (bytesToWords block)
  let fin := (List.range 80).foldl
    (fun st i =>
      let temp := w32 (rotl32 st.1 5 + sha1F i st.2.1 st.2.2.1 st.2.2.2.1 + st.2.2.2.2
        + sha1K i + w.getD i 0)
      (temp, st.1, rotl32 st.2.1 30, st.2.2.1, st.2.2.2.1))
    h
  (w32 (h.1 + fin.1), w32 (h.2.1 + fin.2.1), w32 (h.2.2.1 + fin.2.2.1),
    w32 (h.2.2.2.1 + fin.2.2.2.1), w32 (h.2.2.2.2 + fin.2.2.2.2))

/-- The 20-byte SHA-1 digest of a byte list. -/
def sha1Digest (msg : List Nat) : List Nat :=
  let fin := (sha1Blocks (sha1Pad msg)).foldl sha1Compress
    (1732584193, 4023233417, 2562383102, 271733878, 3285377520)
  beBytes4 fin.1 ++ beBytes4 fin.2.1 ++ beBytes4 fin.2.2.1 ++ beBytes4 fin.2.2.2.1
    ++ beBytes4 fin.2.2.2.2

/-- Lowercase hex digit. -/
def hexDigitChar (n : Nat) : Char := "0123456789abcdef".data.getD n '0'

/-- Lowercase hex string of a byte list (`hashlib.sha1(...).hexdigest()`). -/
def hexOfBytes (bs : List Nat) : String :=
  String.mk (bs.foldr (fun b acc => hexDigitChar (b / 16) :: hexDigitChar (b % 16) :: acc) [])

/-- `_stable_entity_uuid(project_id, entity_type, name)`:
`"ent_" + sha1(f"{project_id}:{entity_type}:{name.strip().lower()}").hexdigest()[:16]`. -/
def stableEntityUuid (project_id entity_type name : String) : String :=
  let normalized := lowerString (stripString name)
  let base := strUtf8 (project_id ++ ":" ++ entity_type ++ ":" ++ normalized)
  "ent_" ++ String.mk ((hexOfBytes (sha1Digest base)).data.take 16)

/-! ## String normalisation and similarity (`local_entity_resolver.py`)

`difflib.SequenceMatcher(None, a, b).ratio()` is embedded exactly: the
index map `b2j` (with the default autojunk rule), the `find_longest_match`
dynamic program with its two non-junk extension loops (the junk set is
empty because no `isjunk` is passed), and the recursive matching-blocks
sum.  Float ratios become exact rationals. -/

/-- Maximal whitespace-free tokens of a character list (`cur` is the
reversed token under construction). -/
def tokenizeGo (cur : List Char) : List Char → List (List Char)
  | [] => if cur = [] then [] else [cur.reverse]
  | c :: rest =>
    if Char.isWhitespace c then
      if cur = [] then tokenizeGo [] rest else cur.reverse :: tokenizeGo [] rest
    else tokenizeGo (c :: cur) rest

/-- Join tokens with single spaces (the effect of collapsing whitespace
runs and stripping). -/
def joinTokens : List (List Char) → List Char
  | [] => []
  | [t] => t
  | t :: ts => t ++ ' ' :: joinTokens ts

/-- `normalize_string`: lowercase, collapse whitespace runs to one space,
strip. -/
def normalize_string (name : String) : String :=
  if name = "" then ""
  else String.mk (joinTokens (tokenizeGo [] (lowerString name).data))

/-- The character class kept by `normalize_for_fuzzy`:
`[a-z0-9一-鿿 ]`. -/
def fuzzyKeep (c : Char) : Bool :=
  ('a' ≤ c ∧ c ≤ 'z') ∨ ('0' ≤ c ∧ c ≤ '9') ∨ (19968 ≤ c.toNat ∧ c.toNat ≤ 40959) ∨ c = ' '

/-- `normalize_for_fuzzy`: `normalize_string`, replace every other character
by a space, re-collapse whitespace, strip. -/
def normalize_for_fuzzy (name : String) : String :=
  let replaced := (normalize_string name).data.map (fun c => if fuzzyKeep c then c else ' ')
  String.mk (joinTokens (tokenizeGo [] replaced))

/-- Indices at which character `c` occurs in `b` (ascending). -/
def occIdx (b : List Char) (c : Char) : List Nat :=
  (List.range b.length).filter (fun j => decide (b.get? j = some c))

/-- `SequenceMatcher.__chain_b`'s `b2j` lookup for one character: the
occurrence list, dropped entirely when the character is "popular" under the
default autojunk rule (`len(b) >= 200` and more than `len(b)//100 + 1`
occurrences). -/
def b2jGet (b : List Char) (c : Char) : List Nat :=
  let js := occIdx b c
  if 200 ≤ b.length ∧ b.length / 100 + 1 < js.length then [] else js

/-- Association-list lookup with default (the `j2len.get(j-1, 0)` dict read). -/
def alistGetD (l : List (Nat × Nat)) (k dflt : Nat) : Nat :=
  match l.find? (fun p => p.1 == k) with
  | some p => p.2
  | none => dflt

/-- One inner-loop step of `find_longest_match`: extend the run ending at
`(i, j)` using the previous row and update the running best block. -/
def flmRowStep (prevRow : List (Nat × Nat)) (i : Nat)
    (st : List (Nat × Nat) × (Nat × Nat × Nat)) (j : Nat) :
    List (Nat × Nat) × (Nat × Nat × Nat) :=
  let k := (if j = 0 then 0 else alistGetD prevRow (j - 1) 0) + 1
  let best := st.2
  let best' := if best.2.2 < k then (i + 1 - k, j + 1 - k, k) else best
  ((j, k) :: st.1, best')

/-- One outer-loop step of `find_longest_match` (one row `i`, scanning the
`b2j` indices of `a[i]` that fall inside `[blo, bhi)`). -/
def flmOuterStep (a b : List Char) (blo bhi : Nat)
    (st : List (Nat × Nat) × (Nat × Nat × Nat)) (i : Nat) :
    List (Nat × Nat) × (Nat × Nat × Nat) :=
  let js := (b2jGet b (a.getD i (Char.ofNat 0))).filter (fun j => decide (blo ≤ j ∧ j < bhi))
  js.foldl (flmRowStep st.1 i) ([], st.2)

/-- The dynamic program of `find_longest_match` before the extension loops. -/
def findLongestMatchCore (a b : List Char) (alo ahi blo bhi : Nat) : Nat × Nat × Nat :=
  ((List.range' alo (ahi - alo)).foldl (flmOuterStep a b blo bhi) ([], (alo, blo, 0))).2

/-- The first (non-junk) extension loop: grow the best block downwards while
the preceding characters match. -/
def extendLower (a b : List Char) (alo blo : Nat) :
    Nat → (Nat × Nat × Nat) → Nat × Nat × Nat
  | 0, st => st
  | fuel + 1, st =>
    if alo < st.1 ∧ blo < st.2.1 ∧
        a.getD (st.1 - 1) (Char.ofNat 0) = b.getD (st.2.1 - 1) (Char.ofNat 1) then
      extendLower a b alo blo fuel (st.1 - 1, st.2.1 - 1, st.2.2 + 1)
    else st

/-- The second (non-junk) extension loop: grow the best block upwards while
the following characters match. -/
def extendUpper (a b : List Char) (ahi bhi : Nat) :
    Nat → (Nat × Nat × Nat) → Nat × Nat × Nat
  | 0, st => st
  | fuel + 1, st =>
    if st.1 + st.2.2 < ahi ∧ st.2.1 + st.2.2 < bhi ∧
        a.getD (st.1 + st.2.2) (Char.ofNat 0) = b.getD (st.2.1 + st.2.2) (Char.ofNat 1) then
      extendUpper a b ahi bhi fuel (st.1, st.2.1, st.2.2 + 1)
    else st

/-- `SequenceMatcher.find_longest_match(alo, ahi, blo, bhi)` (the junk set is
empty, so the two junk extension loops are no-ops). -/
def find_longest_match (a b : List Char) (alo ahi blo bhi : Nat) : Nat × Nat × Nat :=
  extendUpper a b ahi bhi (ahi + bhi + 1)
    (extendLower a b alo blo (ahi + bhi + 1) (findLongestMatchCore a b alo ahi blo bhi))

/-- Total size of the matching blocks found by the recursive splitting of
`get_matching_blocks` (only the sum matters for `ratio`). -/
def matchingBlocksSum (a b : List Char) : Nat → Nat × Nat × Nat × Nat → Nat
  | 0, _ => 0
  | fuel + 1, q =>
    let m := find_longest_match a b q.1 q.2.1 q.2.2.1 q.2.2.2
    if m.2.2 = 0 then 0
    else m.2.2 + matchingBlocksSum a b fuel (q.1, m.1, q.2.2.1, m.2.1)
      + matchingBlocksSum a b fuel (m.1 + m.2.2, q.2.1, m.2.1 + m.2.2, q.2.2.2)

/-- `SequenceMatcher.ratio()` as an exact rational: `2*M / T`, and `1.0`
when both sequences are empty. -/
def ratioOf (a b : List Char) : ℚ :=
  let total := a.length + b.length
  let msum := matchingBlocksSum a b (total + 1) (0, a.length, 0, b.length)
  if total = 0 then 1 else mkRat (2 * msum) total

/-- `calculate_similarity(s1, s2)`: `0.0` when either string is empty, else
the `SequenceMatcher` ratio. -/
def calculate_similarity (s1 s2 : String) : ℚ :=
  if s1 = "" ∨ s2 = "" then 0 else ratioOf s1.data s2.data

/-- Whitespace-separated tokens (`str.split()` with no argument). -/
def wsTokens (s : String) : List String :=
  (tokenizeGo [] s.data).map String.mk

/-- First-occurrence deduplication (`dict.fromkeys` / `set` cardinalities). -/
def dedupKeepFirst : List String → List String
  | [] => []
  | x :: xs => x :: (dedupKeepFirst xs).filter (fun y => y ≠ x)

/-- `token_jaccard_similarity(s1, s2)`: set-Jaccard over whitespace tokens. -/
def token_jaccard_similarity (s1 s2 : String) : ℚ :=
  if s1 = "" ∧ s2 = "" then 1
  else if s1 = "" ∨ s2 = "" then 0
  else
    let t1 := dedupKeepFirst (wsTokens s1)
    let t2 := dedupKeepFirst (wsTokens s2)
    if t1 = [] ∧ t2 = [] then 1
    else if t1 = [] ∨ t2 = [] then 0
    else
      let inter := (t1.filter (fun t => t2.contains t)).length
      let uni := (t1 ++ t2.filter (fun t => ¬ t1.contains t)).length
      if 0 < uni then mkRat inter uni else 0

/-! ## Graph store (`local_graph_store.py`)

The Neo4j database becomes a list of entity records plus a list of
relation records; each Cypher statement becomes a pure update mirroring
its `MERGE` / `SET` / `CASE` clauses.  `Option` fields model properties
that may be absent (Cypher `NULL`). -/

/-- A `LocalEntity` dataclass value as handed to `upsert_entities`.
`attributes_json` carries the `json.dumps(ent.attributes or {})` the
source sends as a parameter; an empty `created_at` models Python `None`
(the source only tests it for falsiness). -/
structure LocalEntity where
  project_id : String
  graph_id : String
  name : String
  entity_type : String
  summary : String := ""
  attributes_json : String := "\x7b\x7d"
  source_entity_types : List String := []
  created_at : String := ""
deriving DecidableEq

/-- `LocalEntity.uuid`: the deterministic uuid property. -/
def LocalEntity.uuid (e : LocalEntity) : String :=
  stableEntityUuid e.project_id e.entity_type e.name

/-- A stored `:Entity` node. -/
structure EntityRecord where
  uuid : String
  project_id : String
  graph_id : String
  name : String
  entity_type : String
  summary : Option String
  attributes_json : Option String
  source_entity_types : Option (List String)
  created_at : Option String
deriving DecidableEq

/-- The `SET` clauses of `upsert_entities` applied to one matched (or
freshly merged) node, with the parameters computed as in the source:
`summary or ""`, `json.dumps(attributes or {})`, the deduplicated
non-empty `source_entity_types`, and `created_at or _now_iso()`. -/
def entSetClauses (r : EntityRecord) (ent : LocalEntity) (now : String) : EntityRecord :=
  let summaryParam := ent.summary
  let attributesParam := ent.attributes_json
  let typesParam := dedupKeepFirst (ent.source_entity_types.filter (fun t => t ≠ ""))
  let createdParam := if ent.created_at = "" then now else ent.created_at
  { r with
    project_id := ent.project_id
    graph_id := ent.graph_id
    name := ent.name
    entity_type := ent.entity_type
    summary := if summaryParam = "" then r.summary else some summaryParam
    attributes_json :=
      if attributesParam = "\x7b\x7d" then r.attributes_json else some attributesParam
    source_entity_types := some (match r.source_entity_types with
      | none => typesParam
      | some old => old ++ typesParam.filter (fun t => ¬ old.contains t))
    created_at := match r.created_at with
      | some c => some c
      | none => some createdParam }

/-- A bare node as `MERGE (e:Entity {uuid: $uuid})` creates it. -/
def blankEntity (uuid : String) : EntityRecord :=
  { uuid := uuid, project_id := "", graph_id := "", name := "", entity_type := "",
    summary := none, attributes_json := none, source_entity_types := none,
    created_at := none }

/-- One iteration of the `upsert_entities` loop: `MERGE` on the
deterministic uuid, then the `SET` clauses. -/
def upsertEntityOnce (store : List EntityRecord) (ent : LocalEntity) (now : String) :
    List EntityRecord :=
  let uuid := ent.uuid
  if store.any (fun r => r.uuid == uuid) then
    store.map (fun r => if r.uuid = uuid then entSetClauses r ent now else r)
  else
    store ++ [entSetClauses (blankEntity uuid) ent now]

/-- `upsert_entities(entities)`: the loop over the batch (also returning the
uuid list the source collects). -/
def upsert_entities (store : List EntityRecord) (ents : List LocalEntity) (now : String) :
    List EntityRecord × List String :=
  (ents.foldl (fun st e => upsertEntityOnce st e now) store, ents.map LocalEntity.uuid)

/-- A `LocalRelation` dataclass value as handed to `upsert_relations`.  The
updater always builds `attributes = {valid_at, episodes, **extracted}`, and
`upsert_relations` pops the two temporal keys back out; the record carries
the three parts separately (`attributes_json` is the serialized remainder).
Empty `valid_at`/`created_at`/`uuid` model Python `None` (tested only for
falsiness). -/
structure LocalRelation where
  project_id : String
  graph_id : String
  source_uuid : String
  target_uuid : String
  relation_name : String
  fact : String := ""
  valid_at : String := ""
  episodes : List String := []
  attributes_json : String := "\x7b\x7d"
  created_at : String := ""
  uuid : String := ""
deriving DecidableEq

/-- A stored `:REL` relationship. -/
structure RelRecord where
  uuid : String
  project_id : String
  graph_id : String
  source_uuid : String
  target_uuid : String
  name : String
  fact : String
  fact_type : String
  attributes_json : String
  created_at : Option String
  valid_at : Option String
  invalid_at : Option String
  expired_at : Option String
  episodes : Option (List String)
deriving DecidableEq

/-- Does an entity node with this uuid exist in this graph (the two
`MATCH (:Entity {uuid, graph_id})` clauses of `upsert_relations`)? -/
def entityExistsIn (entities : List EntityRecord) (uuid graph_id : String) : Bool :=
  entities.any (fun e => e.uuid == uuid && e.graph_id == graph_id)

/-- The `SET` clauses of `upsert_relations` on one matched (or freshly
merged) relationship.  `invalid_at` and `expired_at` are not in the `SET`
list and stay untouched. -/
def relSetClauses (r : RelRecord) (rel : LocalRelation) (valid_at : String)
    (episodes : List String) (now : String) : RelRecord :=
  { r with
    project_id := rel.project_id
    graph_id := rel.graph_id
    name := rel.relation_name
    fact := rel.fact
    fact_type := rel.relation_name
    attributes_json := rel.attributes_json
    created_at := match r.created_at with
      | some c => some c
      | none => some (if rel.created_at = "" then now else rel.created_at)
    valid_at := match r.valid_at with
      | some v => some v
      | none => some valid_at
    episodes := some (match r.episodes with
      | none => episodes
      | some old => old ++ episodes.filter (fun ep => ¬ old.contains ep)) }

/-- A bare relationship as `MERGE (s)-[r:REL {uuid: $uuid}]->(t)` creates
it between the matched endpoints. -/
def blankRel (uuid source_uuid target_uuid : String) : RelRecord :=
  { uuid := uuid, project_id := "", graph_id := "", source_uuid := source_uuid,
    target_uuid := target_uuid, name := "", fact := "", fact_type := "",
    attributes_json := "", created_at := none, valid_at := none, invalid_at := none,
    expired_at := none, episodes := none }

/-- One iteration of the `upsert_relations` loop: resolve the uuid fallback
and the popped temporal parameters, match the endpoints, `MERGE` the
relationship pattern, apply the `SET` clauses. -/
def upsertRelationOnce (entities : List EntityRecord) (store : List RelRecord)
    (rel : LocalRelation) (freshUuid now : String) : List RelRecord :=
  let rel_uuid := if rel.uuid = "" then freshUuid else rel.uuid
  let valid_at := if rel.valid_at ≠ "" then rel.valid_at
    else if rel.created_at ≠ "" then rel.created_at else now
  let episodes := rel.episodes
  if entityExistsIn entities rel.source_uuid rel.graph_id
      ∧ entityExistsIn entities rel.target_uuid rel.graph_id then
    if store.any (fun r => r.uuid == rel_uuid && r.source_uuid == rel.source_uuid
        && r.target_uuid == rel.target_uuid) then
      store.map (fun r =>
        if r.uuid = rel_uuid ∧ r.source_uuid = rel.source_uuid
            ∧ r.target_uuid = rel.target_uuid then
          relSetClauses r rel valid_at episodes now
        else r)
    else
      store ++ [relSetClauses (blankRel rel_uuid rel.source_uuid rel.target_uuid)
        rel valid_at episodes now]
  else store

/-- `upsert_relations(relations)`: the loop over the batch, drawing uuid
fallbacks from the supply `fresh`. -/
def upsert_relations (entities : List EntityRecord) (store : List RelRecord)
    (rels : List LocalRelation) (fresh : Nat → String) (now : String) : List RelRecord :=
  (rels.zip (List.range rels.length)).foldl
    (fun st p => upsertRelationOnce entities st p.1 (fresh p.2) now) store

/-- `get_edges_between_entities(graph_id, source_uuid, target_uuid,
include_invalid)`: matching edges, keeping invalidated ones only when asked
(`invalid_at IS NULL OR invalid_at = ""` otherwise). -/
def get_edges_between_entities (store : List RelRecord)
    (graph_id source_uuid target_uuid : String) (include_invalid : Bool) :
    List RelRecord :=
  store.filter (fun r => decide (r.source_uuid = source_uuid ∧ r.target_uuid = target_uuid
    ∧ r.graph_id = graph_id
    ∧ (include_invalid = true ∨ r.invalid_at = none ∨ r.invalid_at = some "")))

/-- `invalidate_edge(edge_uuid, invalid_at)`: set `invalid_at` and
`expired_at` to the same value on every relationship with this uuid
(`invalid_at or _now_iso()` resolves the parameter). -/
def invalidate_edge (store : List RelRecord) (edge_uuid : String)
    (invalid_at : Option String) (now : String) : List RelRecord :=
  let v := match invalid_at with
    | some s => if s = "" then now else s
    | none => now
  store.map (fun r =>
    if r.uuid = edge_uuid then { r with invalid_at := some v, expired_at := some v } else r)

/-- `get_entity_by_uuid(uuid)` (`result.single()` on the uuid match). -/
def get_entity_by_uuid (entities : List EntityRecord) (uuid : String) :
    Option EntityRecord :=
  entities.find? (fun e => e.uuid == uuid)

/-! ## Entity resolver (`local_entity_resolver.py`)

The graph store behind `search_similar_entities` is abstracted as a
function `search : graph_id → name → candidates` (the resolver only reads
each candidate's `uuid` and `name`); the per-batch memo dict becomes an
association list threaded through `resolve`. -/

/-- A candidate row returned by `search_similar_entities` (the resolver
reads only these two fields). -/
structure CandidateEntity where
  uuid : String
  name : String
deriving DecidableEq

/-- `ResolvedEntity`. -/
structure ResolvedEntity where
  uuid : String
  name : String
  entity_type : String
  is_new : Bool
  matched_uuid : Option String
  match_score : ℚ
  should_update_summary : Bool
deriving DecidableEq

/-- `MIN_NAME_LENGTH`. -/
def MIN_NAME_LENGTH : Nat := 2

/-- `FUZZY_MATCH_THRESHOLD` (0.85). -/
def FUZZY_MATCH_THRESHOLD : ℚ := mkRat 17 20

/-- `LocalEntityResolver._select_best_name`: the longer name after removing
spaces, ties to the existing one. -/
def select_best_name (new_name existing_name : String) : String :=
  if existing_name = "" then new_name
  else if new_name = "" then existing_name
  else
    let new_clean := String.mk (new_name.data.filter (fun c => c ≠ ' '))
    let existing_clean := String.mk (existing_name.data.filter (fun c => c ≠ ' '))
    if existing_clean.length < new_clean.length then new_name else existing_name

/-- `LocalEntityResolver._create_new_entity_result`: a new-entity result
whose uuid uses an empty `project_id`. -/
def create_new_entity_result (name entity_type : String) (match_score : ℚ) :
    ResolvedEntity :=
  { uuid := stableEntityUuid "" entity_type name
    name := name
    entity_type := entity_type
    is_new := true
    matched_uuid := none
    match_score := match_score
    should_update_summary := false }

/-- The candidate loop of `_deterministic_resolve`: return the first exact
normalized match immediately (`Sum.inl`), otherwise the best candidate and
score after the whole scan (`Sum.inr`). -/
def candidateScan (normalized_name fuzzy_name : String) :
    List CandidateEntity → Option CandidateEntity → ℚ →
    CandidateEntity ⊕ (Option CandidateEntity × ℚ)
  | [], best, best_score => Sum.inr (best, best_score)
  | c :: rest, best, best_score =>
    if normalized_name = normalize_string c.name then Sum.inl c
    else
      let seq_score := calculate_similarity normalized_name (normalize_string c.name)
      let fuzzy_seq_score := calculate_similarity fuzzy_name (normalize_for_fuzzy c.name)
      let token_jaccard := token_jaccard_similarity fuzzy_name (normalize_for_fuzzy c.name)
      let score := max seq_score (max fuzzy_seq_score token_jaccard)
      if best_score < score then candidateScan normalized_name fuzzy_name rest (some c) score
      else candidateScan normalized_name fuzzy_name rest best best_score

/-- `LocalEntityResolver._deterministic_resolve`. -/
def deterministic_resolve (search : String → String → List CandidateEntity)
    (graph_id name entity_type summary : String) : ResolvedEntity :=
  let normalized_name := normalize_string name
  let fuzzy_name := normalize_for_fuzzy name
  let candidates := search graph_id name
  if candidates = [] then create_new_entity_result name entity_type 0
  else
    match candidateScan normalized_name fuzzy_name candidates none 0 with
    | Sum.inl c =>
      { uuid := c.uuid
        name := select_best_name name c.name
        entity_type := entity_type
        is_new := false
        matched_uuid := some c.uuid
        match_score := 1
        should_update_summary := summary ≠ "" }
    | Sum.inr br =>
      match br.1 with
      | some c =>
        if FUZZY_MATCH_THRESHOLD ≤ br.2 then
          { uuid := c.uuid
            name := select_best_name name c.name
            entity_type := entity_type
            is_new := false
            matched_uuid := some c.uuid
            match_score := br.2
            should_update_summary := summary ≠ "" }
        else create_new_entity_result name entity_type br.2
      | none => create_new_entity_result name entity_type 0

/-- The resolver's per-batch memo: `{graph_id:normalized_name → result}`. -/
abbrev ResolverCache := List (String × ResolvedEntity)

/-- The memo key `f"{graph_id}:{normalized_name}"`. -/
def resolverCacheKey (graph_id name : String) : String :=
  graph_id ++ ":" ++ normalize_string name

/-- `LocalEntityResolver.clear_cache`. -/
def resolver_clear_cache (_cache : ResolverCache) : ResolverCache := []

/-- `LocalEntityResolver.resolve`: short names bypass everything (including
the memo); otherwise consult the memo, fall back to the deterministic
stage, and record the result.  The optional LLM stage is a `pass`
placeholder in the source and changes nothing. -/
def resolver_resolve (search : String → String → List CandidateEntity)
    (cache : ResolverCache) (graph_id name entity_type summary : String) :
    ResolvedEntity × ResolverCache :=
  if name = "" ∨ (stripString name).length < MIN_NAME_LENGTH then
    (create_new_entity_result name entity_type 0, cache)
  else
    let key := resolverCacheKey graph_id name
    match cache.find? (fun p => p.1 == key) with
    | some p => (p.2, cache)
    | none =>
      let result := deterministic_resolve search graph_id name entity_type summary
      (result, (key, result) :: cache)

/-! ## Updater relation processing (`local_graph_memory_updater.py`) -/

/-- `DUPLICATE_THRESHOLD` (0.75) inside `_is_duplicate_fact`. -/
def DUPLICATE_THRESHOLD : ℚ := mkRat 3 4

/-- `LocalGraphMemoryUpdater._is_duplicate_fact(existing_edges,
new_relation, new_fact)`. -/
def is_duplicate_fact (existing_edges : List RelRecord) (new_relation new_fact : String) :
    Bool :=
  let nr := normalize_string new_relation
  let nf := normalize_string new_fact
  existing_edges.any fun edge =>
    let er := normalize_string edge.name
    if calculate_similarity nr er < mkRat 4 5 then false
    else
      let ef := normalize_string edge.fact
      if nf = "" ∧ ef = "" then true
      else decide (DUPLICATE_THRESHOLD ≤ calculate_similarity nf ef)

/-- `LocalGraphMemoryUpdater._find_existing_entity(name, entity_type)`:
resolve against existing nodes only (sharing the resolver memo), returning
a uuid only for a non-new result. -/
def find_existing_entity (search : String → String → List CandidateEntity)
    (cache : ResolverCache) (graph_id name entity_type : String) :
    Option String × ResolverCache :=
  if name = "" ∨ stripString name = "" then (none, cache)
  else
    let r := resolver_resolve search cache graph_id (stripString name) entity_type ""
    (if r.1.is_new = false then some r.1.uuid else none, r.2)

/-- The `entity_uuid_map.get(key)` read followed by the
`_find_existing_entity` fallback, with Python falsiness of an empty uuid
respected on both paths. -/
def resolveEndpointUuid (search : String → String → List CandidateEntity)
    (cache : ResolverCache) (entity_uuid_map : List (String × String))
    (graph_id name ty : String) : Option String × ResolverCache :=
  let mapped := match entity_uuid_map.find? (fun p => p.1 == name ++ ":" ++ ty) with
    | some p => if p.2 = "" then none else some p.2
    | none => none
  match mapped with
  | some u => (some u, cache)
  | none =>
    let r := find_existing_entity search cache graph_id name ty
    (match r.1 with
      | some u => if u = "" then none else some u
      | none => none, r.2)

/-- The contradicted-uuid list computed inside
`_detect_and_invalidate_contradictions_with_edges`: entity names are looked
up by uuid, the new edge and the copies of the existing edges (with
`relation_name` taken from the stored `name`) are built, and the rule-based
invalidator runs.  An absent entity contributes `""` (`.get("name", "")`). -/
def contradictedUuidsFor (entities : List EntityRecord) (existing_edges : List RelRecord)
    (source_uuid target_uuid new_relation_name new_fact : String) : List String :=
  let source_name := match get_entity_by_uuid entities source_uuid with
    | some e => e.name
    | none => ""
  let target_name := match get_entity_by_uuid entities target_uuid with
    | some e => e.name
    | none => ""
  let new_edge : EdgeView :=
    { uuid := "", source_name := source_name, target_name := target_name,
      relation_name := new_relation_name, fact := new_fact }
  let edges_with_names := existing_edges.map (fun e =>
    ({ uuid := e.uuid, source_name := source_name, target_name := target_name,
       relation_name := e.name, fact := e.fact } : EdgeView))
  ruleBased_detect_contradictions new_edge edges_with_names

/-- `_detect_and_invalidate_contradictions_with_edges`: invalidate every
contradicted uuid at the batch timestamp. -/
def detect_and_invalidate_with_edges (entities : List EntityRecord)
    (rel_store : List RelRecord) (existing_edges : List RelRecord)
    (source_uuid target_uuid new_relation_name new_fact timestamp : String) :
    List RelRecord :=
  if existing_edges = [] then rel_store
  else
    (contradictedUuidsFor entities existing_edges source_uuid target_uuid
        new_relation_name new_fact).foldl
      (fun st u => invalidate_edge st u (some timestamp) timestamp) rel_store

/-- One extracted relation dict (`attributes_json` is the serialized
`rel.get("attributes")`, merged into the new edge's attributes). -/
structure ExtractedRelation where
  source : String := ""
  source_type : String := "Entity"
  target : String := ""
  target_type : String := "Entity"
  relation : String := ""
  fact : String := ""
  attributes_json : String := "\x7b\x7d"
deriving DecidableEq

/-- One iteration of the `_process_relations` loop.  The state is
`(relation store, resolver memo, accumulated local_relations)`; the entity
store is fixed during the loop (nothing in it writes entities). -/
def process_one_relation (search : String → String → List CandidateEntity)
    (entities : List EntityRecord) (graph_id project_id : String)
    (entity_uuid_map : List (String × String)) (episode_id timestamp fresh_uuid : String)
    (st : List RelRecord × ResolverCache × List LocalRelation)
    (rel : ExtractedRelation) :
    List RelRecord × ResolverCache × List LocalRelation :=
  let source_name := stripString rel.source
  let source_type := stripString rel.source_type
  let target_name := stripString rel.target
  let target_type := stripString rel.target_type
  let relation_name := stripString rel.relation
  let fact := stripString rel.fact
  if source_name = "" ∨ target_name = "" ∨ relation_name = "" then st
  else
    let sc := resolveEndpointUuid search st.2.1 entity_uuid_map graph_id source_name
      source_type
    let tc := resolveEndpointUuid search sc.2 entity_uuid_map graph_id target_name
      target_type
    match sc.1, tc.1 with
    | some su, some tu =>
      let existing_edges := get_edges_between_entities st.1 graph_id su tu false
      if existing_edges ≠ [] ∧ is_duplicate_fact existing_edges relation_name fact then
        (st.1, tc.2, st.2.2)
      else
        let rel_store' := if existing_edges ≠ [] then
            detect_and_invalidate_with_edges entities st.1 existing_edges su tu
              relation_name fact timestamp
          else st.1
        let new_rel : LocalRelation :=
          { project_id := project_id, graph_id := graph_id, source_uuid := su,
            target_uuid := tu, relation_name := relation_name, fact := fact,
            valid_at := timestamp, episodes := [episode_id],
            attributes_json := rel.attributes_json, created_at := timestamp,
            uuid := fresh_uuid }
        (rel_store', tc.2, st.2.2 ++ [new_rel])
    | _, _ => (st.1, tc.2, st.2.2)

/-- `LocalGraphMemoryUpdater._process_relations`: the loop over the
extracted relations (drawing fresh edge uuids from `fresh`) followed by the
final `upsert_relations` of the accumulated batch. -/
def process_relations (search : String → String → List CandidateEntity)
    (entities : List EntityRecord) (graph_id project_id : String)
    (entity_uuid_map : List (String × String)) (episode_id timestamp : String)
    (fresh : Nat → String) (cache : ResolverCache) (rel_store : List RelRecord)
    (relations : List ExtractedRelation) : List RelRecord :=
  let res := (relations.zip (List.range relations.length)).foldl
    (fun st p => process_one_relation search entities graph_id project_id entity_uuid_map
      episode_id timestamp (fresh p.2) st p.1)
    (rel_store, cache, [])
  if res.2.2 = [] then res.1
  else upsert_relations entities res.1 res.2.2 fresh timestamp

/-! ## Model rotation (`openai_rotation.py`, `llm_client.py`,
`rotating_openai_model.py`)

The OpenAI call becomes an oracle `call : model → outcome`; an error is
the `extract_error_info` view `should_rotate_model` actually reads. -/

/-- The `extract_error_info` projection of an exception: status code,
error code string and message string (already `str()`-ed). -/
structure LLMErrorInfo where
  status_code : Option Int
  code : String
  message : String
deriving DecidableEq

/-- The `quota_hints` list of `should_rotate_model`. -/
def quotaHints : List String :=
  ["insufficient_quota", "quota", "billing", "balance", "credit", "exceeded",
    "payment required", "no remaining", "out of credits"]

/-- The `model_hints` list of `should_rotate_model`. -/
def modelHints : List String :=
  ["model_not_found", "does not exist", "not found", "unknown model", "no such model"]

/-- `should_rotate_model(err) -> (should_rotate, reason)`. -/
def should_rotate_model (info : LLMErrorInfo) : Bool × String :=
  let code := stripString (lowerString info.code)
  let msg := stripString (lowerString info.message)
  if code = "insufficient_quota" ∨ code = "model_not_found" then (true, code)
  else if info.status_code = some 402 then (true, "payment_required")
  else if info.status_code = some 429 then (true, "rate_limit_or_quota")
  else if info.status_code = some 403 ∧ quotaHints.any (fun h => strContainsSub msg h) then
    (true, "forbidden_quota")
  else if info.status_code = some 404 ∧ strContainsSub msg "model"
      ∧ modelHints.any (fun h => strContainsSub msg h) then
    (true, "model_not_found")
  else if quotaHints.any (fun h => strContainsSub msg h) then (true, "quota_hint")
  else if strContainsSub msg "model" ∧ modelHints.any (fun h => strContainsSub msg h) then
    (true, "model_hint")
  else (false, "non_rotatable")

/-- What one attempt against a named model does. -/
inductive CallOutcome where
  | success : Nat → CallOutcome
  | failure : LLMErrorInfo → CallOutcome
deriving DecidableEq

/-- How a rotation-driven call ends. -/
inductive RotationOutcome where
  | ok : Nat → String → RotationOutcome
  | raised : LLMErrorInfo → RotationOutcome
  | noModels : RotationOutcome
deriving DecidableEq

/-- The `for idx, model_name in enumerate(model_pool)` loop shared by
`LLMClient._create_chat_completion_with_rotation` and
`RotatingOpenAIModel._request_chat_completion`: on success return; on a
rotatable error that is not on the last model, remember it and continue;
otherwise re-raise.  (The `raise last_error` after the loop is reachable
only for an empty pool, where `last_error` is still `None` and the
`RuntimeError` is raised instead.)  Returns the models attempted, in
order, alongside the outcome. -/
def rotate_through_models (call : String → CallOutcome) :
    List String → List String × RotationOutcome
  | [] => ([], RotationOutcome.noModels)
  | m :: rest =>
    match call m with
    | CallOutcome.success r => ([m], RotationOutcome.ok r m)
    | CallOutcome.failure e =>
      if (should_rotate_model e).1 = true ∧ rest ≠ [] then
        (m :: (rotate_through_models call rest).1, (rotate_through_models call rest).2)
      else ([m], RotationOutcome.raised e)

/-- A rotatable failure, as classified by `should_rotate_model`. -/
def isRotatableFailure : CallOutcome → Bool
  | CallOutcome.success _ => false
  | CallOutcome.failure e => (should_rotate_model e).1

/-! ## JSON parsing and `chat_json` (`llm_client.py`)

`json.loads` is embedded as a recursive-descent parser for exactly the
language CPython's decoder accepts (strict strings, surrogate-pair
escapes, `NaN`/`Infinity` constants, `[ \t\n\r]` whitespace, no trailing
data).  Numbers keep their lexeme; objects keep their key/value pairs in
order. -/

/-- Parsed JSON values (string content as code points, numbers as their
lexemes). -/
inductive JsonVal where
  | jnull : JsonVal
  | jbool : Bool → JsonVal
  | jnum : String → JsonVal
  | jstr : List Nat → JsonVal
  | jarr : List JsonVal → JsonVal
  | jobj : List (List Nat × JsonVal) → JsonVal

/-- The opening brace character (written via its code point). -/
def lbrace : Char := Char.ofNat 123

/-- The closing brace character (written via its code point). -/
def rbrace : Char := Char.ofNat 125

/-- JSON whitespace (`' \t\n\r'`). -/
def jsonWs (c : Char) : Bool := c = ' ' ∨ c = '\t' ∨ c = '\n' ∨ c = '\r'

/-- Skip JSON whitespace. -/
def skipJsonWs (cs : List Char) : List Char := cs.dropWhile jsonWs

/-- ASCII digit test. -/
def isDigitCh (c : Char) : Bool := '0' ≤ c ∧ c ≤ '9'

/-- Hex digit value. -/
def hexVal (c : Char) : Option Nat :=
  if '0' ≤ c ∧ c ≤ '9' then some (c.toNat - 48)
  else if 'a' ≤ c ∧ c ≤ 'f' then some (c.toNat - 87)
  else if 'A' ≤ c ∧ c ≤ 'F' then some (c.toNat - 70)
  else none

/-- Greedy digit run. -/
def parseDigits : List Char → List Char × List Char
  | [] => ([], [])
  | c :: rest =>
    if isDigitCh c then
      let r := parseDigits rest
      (c :: r.1, r.2)
    else ([], c :: rest)

/-- The body of `py_scanstring` after the opening quote: chunks up to the
closing quote, escape sequences, surrogate-pair combination, and strict
rejection of raw control characters. -/
def parseJsonStringGo : Nat → List Char → List Nat → Option (List Nat × List Char)
  | 0, _, _ => none
  | _ + 1, [], _ => none
  | fuel + 1, c :: rest, acc =>
    if c = '"' then some (acc.reverse, rest)
    else if c = '\\' then
      match rest with
      | [] => none
      | e :: rest2 =>
        if e = '"' then parseJsonStringGo fuel rest2 (34 :: acc)
        else if e = '\\' then parseJsonStringGo fuel rest2 (92 :: acc)
        else if e = '/' then parseJsonStringGo fuel rest2 (47 :: acc)
        else if e = 'b' then parseJsonStringGo fuel rest2 (8 :: acc)
        else if e = 'f' then parseJsonStringGo fuel rest2 (12 :: acc)
        else if e = 'n' then parseJsonStringGo fuel rest2 (10 :: acc)
        else if e = 'r' then parseJsonStringGo fuel rest2 (13 :: acc)
        else if e = 't' then parseJsonStringGo fuel rest2 (9 :: acc)
        else if e = 'u' then
          match rest2 with
          | h1 :: h2 :: h3 :: h4 :: rest3 =>
            match hexVal h1, hexVal h2, hexVal h3, hexVal h4 with
            | some v1, some v2, some v3, some v4 =>
              let u := ((v1 * 16 + v2) * 16 + v3) * 16 + v4
              if 55296 ≤ u ∧ u ≤ 56319 then
                match rest3 with
                | '\\' :: 'u' :: g1 :: g2 :: g3 :: g4 :: rest4 =>
                  match hexVal g1, hexVal g2, hexVal g3, hexVal g4 with
                  | some w1, some w2, some w3, some w4 =>
                    let u2 := ((w1 * 16 + w2) * 16 + w3) * 16 + w4
                    if 56320 ≤ u2 ∧ u2 ≤ 57343 then
                      parseJsonStringGo fuel rest4
                        ((65536 + (u - 55296) * 1024 + (u2 - 56320)) :: acc)
                    else parseJsonStringGo fuel rest3 (u :: acc)
                  | _, _, _, _ => none
                | _ => parseJsonStringGo fuel rest3 (u :: acc)
              else parseJsonStringGo fuel rest3 (u :: acc)
            | _, _, _, _ => none
          | _ => none
        else none
    else if c.toNat < 32 then none
    else parseJsonStringGo fuel rest (c.toNat :: acc)

/-- The leading `-?(0|[1-9]digits)` of the number regex. -/
def parseJsonIntPart : List Char → Option (List Char × List Char)
  | [] => none
  | c :: rest =>
    if c = '0' then some ([c], rest)
    else if '1' ≤ c ∧ c ≤ '9' then
      let d := parseDigits rest
      some (c :: d.1, d.2)
    else none

/-- `NUMBER_RE` matched at the start of the input: the lexeme and the
remainder (or `none` when the regex does not match here). -/
def parseJsonNumber (cs : List Char) : Option (String × List Char) :=
  let core := fun (tail : List Char) (negPre : List Char) =>
    match parseJsonIntPart tail with
    | none => none
    | some ip =>
      let fr := match ip.2 with
        | '.' :: r2 =>
          let d := parseDigits r2
          if d.1 = [] then (([] : List Char), ip.2) else ('.' :: d.1, d.2)
        | _ => ([], ip.2)
      let ex := match fr.2 with
        | e :: r3 =>
          if e = 'e' ∨ e = 'E' then
            match r3 with
            | s :: r4 =>
              if s = '+' ∨ s = '-' then
                let d := parseDigits r4
                if d.1 = [] then (([] : List Char), fr.2) else (e :: s :: d.1, d.2)
              else
                let d := parseDigits r3
                if d.1 = [] then (([] : List Char), fr.2) else (e :: d.1, d.2)
            | [] => ([], fr.2)
          else ([], fr.2)
        | [] => ([], fr.2)
      some (String.mk (negPre ++ ip.1 ++ fr.1 ++ ex.1), ex.2)
  match cs with
  | '-' :: rest => core rest ['-']
  | _ => core cs []

mutual

/-- `scan_once`: one JSON value starting exactly here (callers arrange the
whitespace), following the scanner's dispatch order. -/
def parseJsonValue : Nat → List Char → Option (JsonVal × List Char)
  | 0, _ => none
  | fuel + 1, cs =>
    match cs with
    | [] => none
    | c :: rest =>
      if c = '"' then
        match parseJsonStringGo (rest.length + 1) rest [] with
        | some sr => some (JsonVal.jstr sr.1, sr.2)
        | none => none
      else if c = lbrace then parseJsonObject fuel (skipJsonWs rest) []
      else if c = '[' then parseJsonArray fuel (skipJsonWs rest) []
      else if prefixMatch "null".data cs then some (JsonVal.jnull, cs.drop 4)
      else if prefixMatch "true".data cs then some (JsonVal.jbool true, cs.drop 4)
      else if prefixMatch "false".data cs then some (JsonVal.jbool false, cs.drop 5)
      else
        match parseJsonNumber cs with
        | some nr => some (JsonVal.jnum nr.1, nr.2)
        | none =>
          if prefixMatch "NaN".data cs then some (JsonVal.jnum "NaN", cs.drop 3)
          else if prefixMatch "Infinity".data cs then some (JsonVal.jnum "Infinity", cs.drop 8)
          else if prefixMatch "-Infinity".data cs then
            some (JsonVal.jnum "-Infinity", cs.drop 9)
          else none

/-- `JSONObject` positioned (whitespace already skipped) where either the
closing brace (only while no pair has been read) or a quoted key must
appear. -/
def parseJsonObject : Nat → List Char → List (List Nat × JsonVal) →
    Option (JsonVal × List Char)
  | 0, _, _ => none
  | fuel + 1, cs, acc =>
    match cs with
    | [] => none
    | c :: rest =>
      if (c == rbrace) && acc.isEmpty then some (JsonVal.jobj [], rest)
      else if c = '"' then
        match parseJsonStringGo (rest.length + 1) rest [] with
        | none => none
        | some kr =>
          match skipJsonWs kr.2 with
          | ':' :: r2 =>
            match parseJsonValue fuel (skipJsonWs r2) with
            | none => none
            | some vr =>
              match skipJsonWs vr.2 with
              | c2 :: r3 =>
                if c2 = rbrace then some (JsonVal.jobj (acc ++ [(kr.1, vr.1)]), r3)
                else if c2 = ',' then
                  parseJsonObject fuel (skipJsonWs r3) (acc ++ [(kr.1, vr.1)])
                else none
              | [] => none
          | _ => none
      else none

/-- `JSONArray` positioned (whitespace already skipped) where either the
closing bracket (only while empty) or a value must appear. -/
def parseJsonArray : Nat → List Char → List JsonVal → Option (JsonVal × List Char)
  | 0, _, _ => none
  | fuel + 1, cs, acc =>
    match cs with
    | [] => none
    | c :: _ =>
      if (c == ']') && acc.isEmpty then some (JsonVal.jarr [], cs.drop 1)
      else
        match parseJsonValue fuel cs with
        | none => none
        | some vr =>
          match skipJsonWs vr.2 with
          | c2 :: r2 =>
            if c2 = ']' then some (JsonVal.jarr (acc ++ [vr.1]), r2)
            else if c2 = ',' then parseJsonArray fuel (skipJsonWs r2) (acc ++ [vr.1])
            else none
          | [] => none

end

/-- `json.loads`: skip leading whitespace, one value, only whitespace may
follow. -/
def jsonParse (s : String) : Option JsonVal :=
  let cs := skipJsonWs s.data
  match parseJsonValue (cs.length + 1) cs with
  | some vr => if skipJsonWs vr.2 = [] then some vr.1 else none
  | none => none

/-! ## Fenced-block extraction and `chat_json` (`llm_client.py`) -/

/-- The backtick character (fence delimiter), via its code point. -/
def backtick : Char := Char.ofNat 96

/-- Case-insensitive prefix matching of a lowercase pattern
(`re.IGNORECASE`): each pattern character must equal the lowercased text
character. -/
def prefixMatchCI : List Char → List Char → Bool
  | [], _ => true
  | _ :: _, [] => false
  | p :: ps, c :: cs => p = Char.toLower c && prefixMatchCI ps cs

/-- Case-insensitive prefix test (`re.IGNORECASE` with a lowercase
pattern). -/
def startsWithCI (pat s : List Char) : Bool := prefixMatchCI pat s

/-- Leftmost position where `pat` matches case-insensitively
(`re.search`'s scan over starting positions). -/
def findCI (pat : List Char) : List Char → Option Nat
  | [] => if pat.isEmpty then some 0 else none
  | c :: rest =>
    if startsWithCI pat (c :: rest) then some 0
    else (findCI pat rest).map (fun n => n + 1)

/-- One fenced-block pattern
(`opening marker, lazy capture, closing triple backtick`): the leftmost
opening marker, the earliest closing fence after it, and the stripped
capture (`match.group(1).strip()`; the greedy/lazy whitespace handling of
the regex is absorbed by the final `strip`). -/
def tryFence (openPat : List Char) (text : List Char) : Option (List Char) :=
  match findCI openPat text with
  | none => none
  | some p =>
    let after := text.drop (p + openPat.length)
    match findCI "```".data after with
    | none => none
    | some q => some (stripChars (after.take q))

/-- `_extract_json_from_response(text)`: try the ```` ```json ````
pattern, then the plain ```` ``` ```` pattern, accepting a capture only
when it parses as JSON; otherwise return the stripped text. -/
def extract_json_from_response (text : String) : String :=
  if text = "" then text
  else
    let cs := text.data
    let try1 := match tryFence "```json".data cs with
      | some ex => if (jsonParse (String.mk ex)).isSome then some (String.mk ex) else none
      | none => none
    match try1 with
    | some r => r
    | none =>
      match tryFence "```".data cs with
      | some ex => if (jsonParse (String.mk ex)).isSome then String.mk ex
          else stripString text
      | none => stripString text

/-- How `chat_json` ends, given the chat response text. -/
inductive ChatJsonOutcome where
  | emptyResponse : ChatJsonOutcome
  | malformedJson : ChatJsonOutcome
  | parsed : JsonVal → ChatJsonOutcome

/-- `LLMClient.chat_json` after the chat call returned `response`:
`LLMEmptyResponseError` on an empty or whitespace-only response, else
extract and `json.loads`, raising `JSONDecodeError` on failure. -/
def chat_json (response : String) : ChatJsonOutcome :=
  if response = "" ∨ stripString response = "" then ChatJsonOutcome.emptyResponse
  else
    match jsonParse (extract_json_from_response response) with
    | some j => ChatJsonOutcome.parsed j
    | none => ChatJsonOutcome.malformedJson

/-! ## Claims -/

/-- `add_activities` unfolded over any starting state: `DO_NOTHING`
activities only bump `skipped_count`; the rest are appended to the queue
and counted. -/
theorem add_activities_split (acts : List AgentActivity) (st : UpdaterIntake) :
    add_activities st acts =
      { skipped_count := st.skipped_count
          + (acts.filter (fun a => a.action_type == "DO_NOTHING")).length
        total_activities := st.total_activities
          + (acts.filter (fun a => a.action_type != "DO_NOTHING")).length
        activity_queue := st.activity_queue
          ++ acts.filter (fun a => a.action_type != "DO_NOTHING") } := by
  induction acts generalizing st with
  | nil => simp [add_activities]
  | cons a rest ih =>
    by_cases h : a.action_type = "DO_NOTHING"
    · simp [add_activities, List.foldl_cons, add_activity, h] at ih ⊢
      rw [ih]
      simp [Nat.add_comm, Nat.add_assoc, Nat.add_left_comm]
    · simp [add_activities, List.foldl_cons, add_activity, h] at ih ⊢
      rw [ih]
      simp [Nat.add_comm, Nat.add_assoc, Nat.add_left_comm]

/-- Claim C9: over any sequence of `add_activity` calls, `skipped_count` is
exactly the number of `DO_NOTHING` activities passed in, `total_activities`
counts exactly the other activities, and the queue receives exactly the
non-`DO_NOTHING` activities (a `DO_NOTHING` activity is never enqueued). -/
theorem claim_C9_do_nothing_filter (acts : List AgentActivity) :
    (add_activities ⟨0, 0, []⟩ acts).skipped_count
        = (acts.filter (fun a => a.action_type == "DO_NOTHING")).length
      ∧ (add_activities ⟨0, 0, []⟩ acts).total_activities
        = (acts.filter (fun a => a.action_type != "DO_NOTHING")).length
      ∧ (add_activities ⟨0, 0, []⟩ acts).activity_queue
        = acts.filter (fun a => a.action_type != "DO_NOTHING") := by
  rw [add_activities_split]
  simp

/-- Claim C8 (code-bug witness): when the fifth activity of a platform
arrives, the worker iteration performs `_process_batch_activities` while
`self._buffer_lock` is held - the state the claim (and the source's own
"release the lock, then process" comment) declares unreachable does occur,
and no lock-free processing step exists in the iteration. -/
theorem claim_C8_lock_held_during_batch :
    (WorkerOp.processBatch, true) ∈ workerIterationOps BATCH_SIZE
      ∧ (WorkerOp.processBatch, false) ∉ workerIterationOps BATCH_SIZE := by
  decide

/-- Claim C1 counterexample: with existing edge `LIKES` (uuid `edge-1`) and
new edge `OPPOSES` between the same pair, `OPPOSES` is in
`CONTRADICTING_RELATIONS["LIKES"]` - so the claim (keyed on the existing
edge's relation) demands an invalidation - yet the code, which keys the
table lookup on the new edge's relation, returns nothing. -/
theorem claim_C1_counterexample :
    (CONTRADICTING_RELATIONS (upperString "LIKES")).contains (upperString "OPPOSES") = true
      ∧ "edge-1" ∉ ruleBased_detect_contradictions
        { uuid := "", source_name := "alice", target_name := "bluesky",
          relation_name := "OPPOSES", fact := "" }
        [{ uuid := "edge-1", source_name := "Alice", target_name := "Bluesky",
           relation_name := "LIKES", fact := "" }] := by
  decide

/-- Membership in the invalidator loop's result is preserved when an edge
is put in front of the scanned list. -/
theorem detectGo_mem_cons (ns nt nr nf : String) (ct : List String) (x : String)
    (e : EdgeView) (rest : List EdgeView)
    (h : x ∈ detectContradictionsGo ns nt nr nf ct rest) :
    x ∈ detectContradictionsGo ns nt nr nf ct (e :: rest) := by
  simp only [detectContradictionsGo]
  split_ifs <;> first
    | exact h
    | exact List.mem_cons_of_mem _ h

/-- Any scanned edge with a non-empty uuid, matching names, and a relation
inside the pre-computed contradiction set contributes its uuid. -/
theorem detectGo_mem (ns nt nr nf : String) (ct : List String) (e : EdgeView)
    (l : List EdgeView) (hmem : e ∈ l) (huuid : e.uuid ≠ "")
    (hsrc : lowerString e.source_name = ns) (htgt : lowerString e.target_name = nt)
    (hrel : ct.contains (upperString e.relation_name) = true) :
    e.uuid ∈ detectContradictionsGo ns nt nr nf ct l := by
  induction l with
  | nil => cases hmem
  | cons hd tl ih =>
    rcases List.mem_cons.mp hmem with h | h
    · subst h
      simp only [detectContradictionsGo]
      rw [if_neg huuid]
      rw [if_neg (show ¬ (lowerString e.source_name ≠ ns ∨ lowerString e.target_name ≠ nt)
        from fun hor => hor.elim (fun h1 => h1 hsrc) (fun h2 => h2 htgt))]
      rw [if_pos hrel]
      exact List.mem_cons_self _ _
    · exact detectGo_mem_cons ns nt nr nf ct e.uuid hd tl (ih h)

/-- Claim C1 (amended): for every existing edge with a non-empty uuid whose
source and target names match the new edge's case-insensitively, the edge's
uuid is returned whenever the *existing* edge's relation is a member of the
set registered for the *new* edge's relation in `CONTRADICTING_RELATIONS`
(the source keys the table lookup on the new edge's relation, the reverse
of the claimed direction). -/
theorem claim_C1_contradiction_membership (new_edge : EdgeView)
    (existing_edges : List EdgeView) (e : EdgeView)
    (hmem : e ∈ existing_edges) (huuid : e.uuid ≠ "")
    (hsrc : lowerString e.source_name = lowerString new_edge.source_name)
    (htgt : lowerString e.target_name = lowerString new_edge.target_name)
    (hrel : (CONTRADICTING_RELATIONS (upperString new_edge.relation_name)).contains
      (upperString e.relation_name) = true) :
    e.uuid ∈ ruleBased_detect_contradictions new_edge existing_edges := by
  have hne : existing_edges ≠ [] := by
    intro h
    subst h
    cases hmem
  unfold ruleBased_detect_contradictions
  rw [if_neg hne]
  exact detectGo_mem _ _ _ _ _ e existing_edges hmem huuid hsrc htgt hrel

/-- Witness for the amended C1 at a concrete input: a `DISLIKES` edge
invalidates an existing `LIKES` edge between the same (case-insensitively
equal) names. -/
theorem claim_C1_contradiction_membership_witness :
    ({ uuid := "u1", source_name := "Alice", target_name := "Bluesky",
       relation_name := "LIKES", fact := "" } : EdgeView).uuid
      ∈ ruleBased_detect_contradictions
        { uuid := "", source_name := "alice", target_name := "bluesky",
          relation_name := "DISLIKES", fact := "" }
        [{ uuid := "u1", source_name := "Alice", target_name := "Bluesky",
           relation_name := "LIKES", fact := "" }] :=
  claim_C1_contradiction_membership
    { uuid := "", source_name := "alice", target_name := "bluesky",
      relation_name := "DISLIKES", fact := "" }
    [{ uuid := "u1", source_name := "Alice", target_name := "Bluesky",
       relation_name := "LIKES", fact := "" }]
    { uuid := "u1", source_name := "Alice", target_name := "Bluesky",
      relation_name := "LIKES", fact := "" }
    (by decide) (by decide) (by decide) (by decide) (by decide)

/-- Claim C7 counterexample: the two names are equal after the claimed
normalization (lowercase, collapse internal whitespace, trim), yet
`_stable_entity_uuid` - which only strips and lowercases, without
collapsing - assigns them different uuids. -/
theorem claim_C7_counterexample :
    normalize_string "John  Smith" = normalize_string "John Smith"
      ∧ stableEntityUuid "p" "Person" "John  Smith"
        ≠ stableEntityUuid "p" "Person" "John Smith" := by
  decide

/-- Claim C7 (amended): the entity uuid is a pure function of
`(project_id, entity_type, name.strip().lower())`: entities agreeing on
project and type whose names are equal after trimming and lowercasing get
the same uuid, so re-ingesting such a name targets the same node. -/
theorem claim_C7_uuid_determined_by_strip_lower (e1 e2 : LocalEntity)
    (hp : e1.project_id = e2.project_id) (ht : e1.entity_type = e2.entity_type)
    (hn : lowerString (stripString e1.name) = lowerString (stripString e2.name)) :
    e1.uuid = e2.uuid := by
  unfold LocalEntity.uuid stableEntityUuid
  rw [hp, ht, hn]

/-- Witness for the amended C7: `" Alice "` and `"ALICE"` (same project and
type) get the same uuid. -/
theorem claim_C7_uuid_determined_by_strip_lower_witness :
    ({ project_id := "p", graph_id := "g", name := " Alice ", entity_type := "Person" } : LocalEntity).uuid
      = ({ project_id := "p", graph_id := "g", name := "ALICE",
           entity_type := "Person" } : LocalEntity).uuid :=
  claim_C7_uuid_determined_by_strip_lower
    { project_id := "p", graph_id := "g", name := " Alice ", entity_type := "Person" }
    { project_id := "p", graph_id := "g", name := "ALICE", entity_type := "Person" }
    (by decide) (by decide) (by decide)

/-- Claim C6: upserting an entity whose uuid is already stored never
creates a second record, and the matched record is updated exactly as
claimed: `name`/`entity_type` replaced, `summary` replaced only when the
incoming summary is non-empty, `source_entity_types` extended by exactly
the deduplicated incoming raw types not already present (in order), and a
previously set `created_at` left unchanged. -/
theorem claim_C6_upsert_conflict (store : List EntityRecord) (ent : LocalEntity)
    (now : String) (r : EntityRecord) (hr : r ∈ store) (huuid : r.uuid = ent.uuid) :
    (upsertEntityOnce store ent now).length = store.length
      ∧ ∃ r' ∈ upsertEntityOnce store ent now,
          r'.uuid = r.uuid
          ∧ r'.name = ent.name
          ∧ r'.entity_type = ent.entity_type
          ∧ (ent.summary = "" → r'.summary = r.summary)
          ∧ (ent.summary ≠ "" → r'.summary = some ent.summary)
          ∧ (∀ old, r.source_entity_types = some old →
              r'.source_entity_types = some (old ++
                (dedupKeepFirst (ent.source_entity_types.filter (fun t => t ≠ ""))).filter
                  (fun t => ¬ old.contains t)))
          ∧ (∀ c, r.created_at = some c → r'.created_at = some c) := by
  have hany : store.any (fun x => x.uuid == ent.uuid) = true := by
    rw [List.any_eq_true]
    exact ⟨r, hr, by rw [beq_iff_eq]; exact huuid⟩
  unfold upsertEntityOnce
  rw [if_pos hany]
  constructor
  · exact List.length_map store _
  · refine ⟨entSetClauses r ent now, ?_, ?_, ?_, ?_, ?_, ?_, ?_, ?_⟩
    · have h2 := List.mem_map_of_mem
        (fun x => if x.uuid = ent.uuid then entSetClauses x ent now else x) hr
      simpa [huuid] using h2
    · rfl
    · rfl
    · rfl
    · intro h
      simp [entSetClauses, h]
    · intro h
      simp [entSetClauses, h]
    · intro old hold
      simp [entSetClauses, hold]
    · intro c hc
      simp [entSetClauses, hc]

/-- The concrete entity used by the C6 witness. -/
def cw6_ent : LocalEntity :=
  { project_id := "p", graph_id := "g", name := "Alice", entity_type := "Person",
    summary := "new summary", source_entity_types := ["Person", "User", "Person"],
    created_at := "2026-01-02T00:00:00" }

/-- The concrete pre-existing record used by the C6 witness. -/
def cw6_old : EntityRecord :=
  { uuid := cw6_ent.uuid, project_id := "p", graph_id := "g", name := "alice",
    entity_type := "User", summary := some "old", attributes_json := some "\x7b\x7d",
    source_entity_types := some ["User"], created_at := some "2026-01-01T00:00:00" }

/-- Witness for C6 at a concrete store and entity. -/
theorem claim_C6_upsert_conflict_witness :
    (upsertEntityOnce [cw6_old] cw6_ent "2026-01-03T00:00:00").length = [cw6_old].length
      ∧ ∃ r' ∈ upsertEntityOnce [cw6_old] cw6_ent "2026-01-03T00:00:00",
          r'.uuid = cw6_old.uuid
          ∧ r'.name = cw6_ent.name
          ∧ r'.entity_type = cw6_ent.entity_type
          ∧ (cw6_ent.summary = "" → r'.summary = cw6_old.summary)
          ∧ (cw6_ent.summary ≠ "" → r'.summary = some cw6_ent.summary)
          ∧ (∀ old, cw6_old.source_entity_types = some old →
              r'.source_entity_types = some (old ++
                (dedupKeepFirst (cw6_ent.source_entity_types.filter (fun t => t ≠ ""))).filter
                  (fun t => ¬ old.contains t)))
          ∧ (∀ c, cw6_old.created_at = some c → r'.created_at = some c) :=
  claim_C6_upsert_conflict [cw6_old] cw6_ent "2026-01-03T00:00:00" cw6_old
    (List.mem_singleton.mpr rfl) rfl

/-- The error carried by a failure outcome (dummy on success). -/
def failureErr (c : CallOutcome) : LLMErrorInfo :=
  match c with
  | CallOutcome.failure e => e
  | CallOutcome.success _ => { status_code := none, code := "", message := "" }

/-- A rotatable failure that is not on the last model: the loop remembers
the error and moves on. -/
theorem rotate_rotatable_cons (call : String → CallOutcome) (m : String)
    (rest : List String) (hm : isRotatableFailure (call m) = true) (hrest : rest ≠ []) :
    rotate_through_models call (m :: rest)
      = (m :: (rotate_through_models call rest).1, (rotate_through_models call rest).2) := by
  cases hc : call m with
  | success r =>
    rw [hc] at hm
    simp only [isRotatableFailure] at hm
    cases hm
  | failure e =>
    rw [hc] at hm
    simp only [isRotatableFailure] at hm
    simp only [rotate_through_models, hc]
    rw [if_pos ⟨hm, hrest⟩]

/-- A failure on the last model of the pool is raised, rotatable or not. -/
theorem rotate_failure_last (call : String → CallOutcome) (m : String) (e : LLMErrorInfo)
    (hc : call m = CallOutcome.failure e) :
    rotate_through_models call [m] = ([m], RotationOutcome.raised e) := by
  simp only [rotate_through_models, hc]
  rw [if_neg (fun hand => hand.2 rfl)]

/-- Claim C4: when every model in the pool fails with a rotatable error,
the rotation loop attempts exactly the whole pool in order and surfaces
the last model's error; and as soon as a non-rotatable error occurs
(after any run of rotatable failures) it is raised immediately, with no
later model attempted. -/
theorem claim_C4_rotation_coverage (call : String → CallOutcome) :
    (∀ pool, (∀ m ∈ pool, isRotatableFailure (call m) = true) →
        (rotate_through_models call pool).1 = pool
          ∧ ∀ mlast, pool.getLast? = some mlast →
              (rotate_through_models call pool).2
                = RotationOutcome.raised (failureErr (call mlast)))
      ∧ (∀ pre m post e, (∀ x ∈ pre, isRotatableFailure (call x) = true) →
          call m = CallOutcome.failure e → (should_rotate_model e).1 = false →
          rotate_through_models call (pre ++ m :: post)
            = (pre ++ [m], RotationOutcome.raised e)) := by
  constructor
  · intro pool
    induction pool with
    | nil => exact fun _ => ⟨rfl, fun mlast h => by cases h⟩
    | cons m rest ih =>
      intro hall
      have hm := hall m (List.mem_cons_self m rest)
      cases rest with
      | nil =>
        cases hc : call m with
        | success r =>
          rw [hc] at hm
          simp only [isRotatableFailure] at hm
          cases hm
        | failure e =>
          rw [rotate_failure_last call m e hc]
          refine ⟨rfl, fun mlast h => ?_⟩
          simp only [List.getLast?_singleton, Option.some.injEq] at h
          subst h
          rw [hc]
          rfl
      | cons m2 rest2 =>
        have hrec := ih (fun x hx => hall x (List.mem_cons_of_mem m hx))
        rw [rotate_rotatable_cons call m (m2 :: rest2) hm (by simp)]
        constructor
        · show m :: (rotate_through_models call (m2 :: rest2)).1 = m :: m2 :: rest2
          rw [hrec.1]
        · intro mlast h
          rw [List.getLast?_cons_cons] at h
          exact hrec.2 mlast h
  · intro pre
    induction pre with
    | nil =>
      intro m post e _ hm hnr
      show rotate_through_models call (m :: post) = _
      simp only [rotate_through_models, hm]
      rw [if_neg (fun hand => by
        rw [hnr] at hand
        simp at hand)]
      simp
    | cons x xs ih =>
      intro m post e hall hm hnr
      have hx := hall x (List.mem_cons_self x xs)
      have hne : xs ++ m :: post ≠ [] := by simp
      have hrec := ih m post e (fun y hy => hall y (List.mem_cons_of_mem x hy)) hm hnr
      show rotate_through_models call (x :: (xs ++ m :: post)) = _
      rw [rotate_rotatable_cons call x (xs ++ m :: post) hx hne, hrec]
      simp

/-- Concrete HTTP-429 error for the C4 witness. -/
def cw4_err429 : LLMErrorInfo :=
  { status_code := some 429, code := "", message := "rate limited" }

/-- Concrete non-rotatable auth error for the C4 witness. -/
def cw4_err401 : LLMErrorInfo :=
  { status_code := some 401, code := "", message := "invalid api key" }

/-- Concrete quota-code error for the C4 witness. -/
def cw4_errQuota : LLMErrorInfo :=
  { status_code := none, code := "insufficient_quota", message := "quota exceeded for model" }

/-- A concrete call oracle: `m1` and `m2` fail rotatably, `m3` fails with
an auth error. -/
def cw4_call : String → CallOutcome
  | "m1" => CallOutcome.failure cw4_err429
  | "m2" => CallOutcome.failure cw4_errQuota
  | "m3" => CallOutcome.failure cw4_err401
  | _ => CallOutcome.success 0

/-- Witness for C4: over the pool `[m1, m2]` of rotatable failures both
models are attempted and the last error surfaces; with the auth failure
`m3` placed before `m2`, the loop stops at `m3`. -/
theorem claim_C4_rotation_coverage_witness :
    ((rotate_through_models cw4_call ["m1", "m2"]).1 = ["m1", "m2"]
      ∧ ∀ mlast, (["m1", "m2"] : List String).getLast? = some mlast →
          (rotate_through_models cw4_call ["m1", "m2"]).2
            = RotationOutcome.raised (failureErr (cw4_call mlast)))
    ∧ rotate_through_models cw4_call (["m1"] ++ "m3" :: ["m2"])
        = (["m1"] ++ ["m3"], RotationOutcome.raised cw4_err401) :=
  ⟨(claim_C4_rotation_coverage cw4_call).1 ["m1", "m2"] (by decide),
    (claim_C4_rotation_coverage cw4_call).2 ["m1"] "m3" ["m2"] cw4_err401
      (by decide) (by decide) (by decide)⟩

/-- Claim C2: inside `_process_relations`, when some active stored edge
between the resolved endpoints has relation-name similarity at least 0.8
and fact similarity at least 0.75 with the extracted relation (a pair of
empty normalized facts counting as duplicate), the iteration neither
touches the relation store nor appends a `LocalRelation`, so nothing is
created or upserted for that extracted relation. -/
theorem claim_C2_duplicate_guard (search : String → String → List CandidateEntity)
    (entities : List EntityRecord) (graph_id project_id : String)
    (entity_uuid_map : List (String × String)) (episode_id timestamp fresh_uuid : String)
    (rel_store : List RelRecord) (cache : ResolverCache) (acc : List LocalRelation)
    (rel : ExtractedRelation) (su tu : String) (e : RelRecord)
    (hsu : (resolveEndpointUuid search cache entity_uuid_map graph_id
        (stripString rel.source) (stripString rel.source_type)).1 = some su)
    (htu : (resolveEndpointUuid search
        (resolveEndpointUuid search cache entity_uuid_map graph_id
          (stripString rel.source) (stripString rel.source_type)).2
        entity_uuid_map graph_id (stripString rel.target) (stripString rel.target_type)).1
      = some tu)
    (he : e ∈ get_edges_between_entities rel_store graph_id su tu false)
    (hrel : mkRat 4 5 ≤ calculate_similarity (normalize_string (stripString rel.relation))
        (normalize_string e.name))
    (hfact : (normalize_string (stripString rel.fact) = "" ∧ normalize_string e.fact = "")
        ∨ DUPLICATE_THRESHOLD ≤ calculate_similarity (normalize_string (stripString rel.fact))
            (normalize_string e.fact)) :
    (process_one_relation search entities graph_id project_id entity_uuid_map episode_id
        timestamp fresh_uuid (rel_store, cache, acc) rel).1 = rel_store
      ∧ (process_one_relation search entities graph_id project_id entity_uuid_map episode_id
        timestamp fresh_uuid (rel_store, cache, acc) rel).2.2 = acc := by
  by_cases hnames : stripString rel.source = "" ∨ stripString rel.target = ""
      ∨ stripString rel.relation = ""
  · simp only [process_one_relation, if_pos hnames]
    exact ⟨by trivial, by trivial⟩
  · have hne : get_edges_between_entities rel_store graph_id su tu false ≠ [] := by
      intro h
      rw [h] at he
      cases he
    have hdup : is_duplicate_fact (get_edges_between_entities rel_store graph_id su tu false)
        (stripString rel.relation) (stripString rel.fact) = true := by
      simp only [is_duplicate_fact, List.any_eq_true]
      refine ⟨e, he, ?_⟩
      rw [if_neg (not_lt.mpr hrel)]
      rcases hfact with ⟨ha, hb⟩ | h
      · rw [if_pos ⟨ha, hb⟩]
      · by_cases hboth : normalize_string (stripString rel.fact) = ""
            ∧ normalize_string e.fact = ""
        · rw [if_pos hboth]
        · rw [if_neg hboth]
          exact decide_eq_true h
    simp only [process_one_relation, if_neg hnames, hsu, htu]
    rw [if_pos ⟨hne, hdup⟩]
    exact ⟨by trivial, by trivial⟩

/-- The stored active edge used by the C2 witness. -/
def cw2_edge : RelRecord :=
  { uuid := "edge-1", project_id := "p", graph_id := "g", source_uuid := "u_a",
    target_uuid := "u_b", name := "LIKES", fact := "alice likes bluesky",
    fact_type := "LIKES", attributes_json := "\x7b\x7d", created_at := some "t0",
    valid_at := some "t0", invalid_at := none, expired_at := none, episodes := some [] }

/-- The extracted relation used by the C2 witness (same relation and fact). -/
def cw2_rel : ExtractedRelation :=
  { source := "alice", source_type := "Person", target := "bluesky",
    target_type := "Product", relation := "LIKES", fact := "alice likes bluesky" }

/-- The entity-uuid map used by the C2 witness. -/
def cw2_map : List (String × String) :=
  [("alice:Person", "u_a"), ("bluesky:Product", "u_b")]

/-- Witness for C2: re-extracting an identical `LIKES` fact leaves the
relation store untouched and appends nothing. -/
theorem claim_C2_duplicate_guard_witness :
    (process_one_relation (fun _ _ => []) [] "g" "p" cw2_map "ep1" "t1" "rel_x"
        ([cw2_edge], [], []) cw2_rel).1 = [cw2_edge]
      ∧ (process_one_relation (fun _ _ => []) [] "g" "p" cw2_map "ep1" "t1" "rel_x"
        ([cw2_edge], [], []) cw2_rel).2.2 = [] :=
  claim_C2_duplicate_guard (fun _ _ => []) [] "g" "p" cw2_map "ep1" "t1" "rel_x"
    [cw2_edge] [] [] cw2_rel "u_a" "u_b" cw2_edge
    (by decide) (by decide) (by decide) (by decide)
    (Or.inr (by decide))

/-- `invalidate_edge` called with a timestamp (and the same `now`, as the
updater does) is a pointwise map setting both temporal fields to that
timestamp on the matching uuid. -/
theorem invalidate_edge_ts (store : List RelRecord) (u ts : String) :
    invalidate_edge store u (some ts) ts
      = store.map (fun r => if r.uuid = u
          then { r with invalid_at := some ts, expired_at := some ts } else r) := by
  simp only [invalidate_edge, ite_self]

/-- After `invalidate_edge`, every record carrying the target uuid has both
fields equal to the timestamp. -/
theorem invalidate_sets (store : List RelRecord) (u ts : String) (r : RelRecord)
    (hr : r ∈ invalidate_edge store u (some ts) ts) (hru : r.uuid = u) :
    r.invalid_at = some ts ∧ r.expired_at = some ts := by
  rw [invalidate_edge_ts] at hr
  rcases List.mem_map.mp hr with ⟨s, hs, hmap⟩
  by_cases h : s.uuid = u
  · rw [if_pos h] at hmap
    rw [← hmap]
    exact ⟨rfl, rfl⟩
  · rw [if_neg h] at hmap
    rw [← hmap] at hru
    exact absurd hru h

/-- `invalidate_edge` at the same timestamp preserves the already-set
state of records carrying uuid `u`. -/
theorem invalidate_preserves (store : List RelRecord) (x u ts : String)
    (hP : ∀ r ∈ store, r.uuid = u → r.invalid_at = some ts ∧ r.expired_at = some ts) :
    ∀ r ∈ invalidate_edge store x (some ts) ts, r.uuid = u →
      r.invalid_at = some ts ∧ r.expired_at = some ts := by
  intro r hr hru
  rw [invalidate_edge_ts] at hr
  rcases List.mem_map.mp hr with ⟨s, hs, hmap⟩
  by_cases h : s.uuid = x
  · rw [if_pos h] at hmap
    rw [← hmap]
    exact ⟨rfl, rfl⟩
  · rw [if_neg h] at hmap
    subst hmap
    exact hP s hs hru

/-- Folding `invalidate_edge` over any uuid list at one timestamp
preserves the state of uuid `u`. -/
theorem invFold_preserves (ts u : String) :
    ∀ (us : List String) (store : List RelRecord),
      (∀ r ∈ store, r.uuid = u → r.invalid_at = some ts ∧ r.expired_at = some ts) →
      ∀ r ∈ us.foldl (fun st x => invalidate_edge st x (some ts) ts) store,
        r.uuid = u → r.invalid_at = some ts ∧ r.expired_at = some ts := by
  intro us
  induction us with
  | nil => intro store hP; exact hP
  | cons x rest ih =>
    intro store hP
    exact ih _ (invalidate_preserves store x u ts hP)

/-- Folding `invalidate_edge` over a uuid list containing `u` sets `u`'s
records to the timestamp. -/
theorem invFold_sets (ts u : String) :
    ∀ (us : List String) (store : List RelRecord), u ∈ us →
      ∀ r ∈ us.foldl (fun st x => invalidate_edge st x (some ts) ts) store,
        r.uuid = u → r.invalid_at = some ts ∧ r.expired_at = some ts := by
  intro us
  induction us with
  | nil => intro store h; cases h
  | cons x rest ih =>
    intro store hu
    rcases List.mem_cons.mp hu with h | h
    · subst h
      exact invFold_preserves ts u rest _ (invalidate_sets store u ts)
    · exact ih _ h

/-- `_detect_and_invalidate_contradictions_with_edges` preserves the
already-invalidated state of uuid `u`. -/
theorem detect_invalidate_preserves (entities : List EntityRecord)
    (store existing : List RelRecord) (su tu rn nf ts u : String)
    (hP : ∀ r ∈ store, r.uuid = u → r.invalid_at = some ts ∧ r.expired_at = some ts) :
    ∀ r ∈ detect_and_invalidate_with_edges entities store existing su tu rn nf ts,
      r.uuid = u → r.invalid_at = some ts ∧ r.expired_at = some ts := by
  unfold detect_and_invalidate_with_edges
  by_cases hex : existing = []
  · rw [if_pos hex]
    exact hP
  · rw [if_neg hex]
    exact invFold_preserves ts u _ store hP

/-- One `_process_relations` iteration either leaves the relation store
alone or routes it through the contradiction-invalidation step, and either
leaves the accumulated batch alone or appends one relation carrying the
fresh uuid. -/
theorem process_one_shape (search : String → String → List CandidateEntity)
    (entities : List EntityRecord) (graph_id project_id : String)
    (entity_uuid_map : List (String × String)) (episode_id timestamp fresh_uuid : String)
    (st : List RelRecord × ResolverCache × List LocalRelation) (rel : ExtractedRelation) :
    ((process_one_relation search entities graph_id project_id entity_uuid_map episode_id
        timestamp fresh_uuid st rel).1 = st.1
      ∨ ∃ ex su tu,
          (process_one_relation search entities graph_id project_id entity_uuid_map episode_id
            timestamp fresh_uuid st rel).1
            = detect_and_invalidate_with_edges entities st.1 ex su tu
                (stripString rel.relation) (stripString rel.fact) timestamp)
    ∧ ((process_one_relation search entities graph_id project_id entity_uuid_map episode_id
        timestamp fresh_uuid st rel).2.2 = st.2.2
      ∨ ∃ lr : LocalRelation, lr.uuid = fresh_uuid
          ∧ (process_one_relation search entities graph_id project_id entity_uuid_map
              episode_id timestamp fresh_uuid st rel).2.2 = st.2.2 ++ [lr]) := by
  simp only [process_one_relation]
  split
  · exact ⟨Or.inl rfl, Or.inl rfl⟩
  · split
    · split
      · exact ⟨Or.inl rfl, Or.inl rfl⟩
      · split
        · exact ⟨Or.inr ⟨_, _, _, rfl⟩, Or.inr ⟨_, rfl, rfl⟩⟩
        · exact ⟨Or.inl rfl, Or.inr ⟨_, rfl, rfl⟩⟩
    · exact ⟨Or.inl rfl, Or.inl rfl⟩

/-- `upsertRelationOnce` never touches `invalid_at`/`expired_at` of stored
records and only creates records under the relation's own (or the fresh
fallback) uuid, so the invalidated state of an unrelated uuid survives. -/
theorem upsert_rel_once_preserves (entities : List EntityRecord) (store : List RelRecord)
    (rel : LocalRelation) (fu now u ts : String) (hru : rel.uuid ≠ u) (hfu : fu ≠ u)
    (hP : ∀ r ∈ store, r.uuid = u → r.invalid_at = some ts ∧ r.expired_at = some ts) :
    ∀ r ∈ upsertRelationOnce entities store rel fu now, r.uuid = u →
      r.invalid_at = some ts ∧ r.expired_at = some ts := by
  intro r hr hruuid
  simp only [upsertRelationOnce] at hr
  set ru := if rel.uuid = "" then fu else rel.uuid with hru_def
  set vat := if rel.valid_at ≠ "" then rel.valid_at
    else if rel.created_at ≠ "" then rel.created_at else now with hvat_def
  have huuid_ne : ru ≠ u := by
    rw [hru_def]
    by_cases hz : rel.uuid = ""
    · rw [if_pos hz]
      exact hfu
    · rw [if_neg hz]
      exact hru
  split at hr
  · split at hr
    · rcases List.mem_map.mp hr with ⟨s, hs, hmap⟩
      split at hmap
      · rw [← hmap] at hruuid ⊢
        exact hP s hs hruuid
      · subst hmap
        exact hP s hs hruuid
    · rcases List.mem_append.mp hr with h | h
      · exact hP r h hruuid
      · rw [List.mem_singleton.mp h] at hruuid
        exact absurd hruuid huuid_ne
  · exact hP r hr hruuid

/-- The batch upsert of `_process_relations` (over index/uuid pairs whose
relations all carry uuids other than `u`) preserves the invalidated state
of `u`. -/
theorem upsert_pairs_preserve (entities : List EntityRecord) (fresh : Nat → String)
    (now u ts : String) (hfresh : ∀ n, fresh n ≠ u) :
    ∀ (ps : List (LocalRelation × Nat)) (store : List RelRecord),
      (∀ p ∈ ps, p.1.uuid ≠ u) →
      (∀ r ∈ store, r.uuid = u → r.invalid_at = some ts ∧ r.expired_at = some ts) →
      ∀ r ∈ ps.foldl (fun st p => upsertRelationOnce entities st p.1 (fresh p.2) now) store,
        r.uuid = u → r.invalid_at = some ts ∧ r.expired_at = some ts := by
  intro ps
  induction ps with
  | nil => intro store _ hP; exact hP
  | cons p rest ih =>
    intro store hps hP
    exact ih _ (fun q hq => hps q (List.mem_cons_of_mem p hq))
      (upsert_rel_once_preserves entities store p.1 (fresh p.2) now u ts
        (hps p (List.mem_cons_self p rest)) (hfresh p.2) hP)

/-- The relation loop of `_process_relations` (over index pairs) preserves
both the invalidated state of `u` and the fact that every accumulated
relation carries a fresh (non-`u`) uuid. -/
theorem process_pairs_preserve (search : String → String → List CandidateEntity)
    (entities : List EntityRecord) (graph_id project_id : String)
    (entity_uuid_map : List (String × String)) (episode_id timestamp : String)
    (fresh : Nat → String) (u ts : String) (hfresh : ∀ n, fresh n ≠ u)
    (hts : ts = timestamp) :
    ∀ (pairs : List (ExtractedRelation × Nat))
      (st : List RelRecord × ResolverCache × List LocalRelation),
      (∀ r ∈ st.1, r.uuid = u → r.invalid_at = some ts ∧ r.expired_at = some ts) →
      (∀ lr ∈ st.2.2, lr.uuid ≠ u) →
      (∀ r ∈ (pairs.foldl (fun st p => process_one_relation search entities graph_id
          project_id entity_uuid_map episode_id timestamp (fresh p.2) st p.1) st).1,
        r.uuid = u → r.invalid_at = some ts ∧ r.expired_at = some ts)
      ∧ (∀ lr ∈ (pairs.foldl (fun st p => process_one_relation search entities graph_id
          project_id entity_uuid_map episode_id timestamp (fresh p.2) st p.1) st).2.2,
        lr.uuid ≠ u) := by
  intro pairs
  induction pairs with
  | nil => intro st hP hacc; exact ⟨hP, hacc⟩
  | cons p rest ih =>
    intro st hP hacc
    apply ih
    · rcases (process_one_shape search entities graph_id project_id entity_uuid_map
          episode_id timestamp (fresh p.2) st p.1).1 with h | ⟨ex, su, tu, h⟩
      · rw [h]
        exact hP
      · rw [h, hts]
        exact detect_invalidate_preserves entities st.1 ex su tu
          (stripString p.1.relation) (stripString p.1.fact) timestamp u (hts ▸ hP)
    · rcases (process_one_shape search entities graph_id project_id entity_uuid_map
          episode_id timestamp (fresh p.2) st p.1).2 with h | ⟨lr, hlr, h⟩
      · rw [h]
        exact hacc
      · rw [h]
        intro x hx
        rcases List.mem_append.mp hx with hx | hx
        · exact hacc x hx
        · rw [List.mem_singleton.mp hx, hlr]
          exact hfresh p.2

/-- Claim C3: (i) when the rule-based invalidator, as run inside the batch
step on the fetched edges, returns a uuid `u`, every record with that uuid
in the store produced by the invalidation step carries
`invalid_at = expired_at = timestamp`; (ii) that state survives the rest of
`_process_relations` - later invalidations reuse the same batch timestamp
and the final upsert only writes fresh-uuid relations and never touches
the temporal-invalidity fields; (iii) every `invalidate_edge` call sets
`expired_at` equal to `invalid_at`, both to the same non-null value. -/
theorem claim_C3_contradiction_invalidation :
    (∀ (entities : List EntityRecord) (rel_store existing : List RelRecord)
        (su tu rn nf ts u : String),
      u ∈ contradictedUuidsFor entities existing su tu rn nf →
      ∀ r ∈ detect_and_invalidate_with_edges entities rel_store existing su tu rn nf ts,
        r.uuid = u → r.invalid_at = some ts ∧ r.expired_at = some ts)
    ∧ (∀ (search : String → String → List CandidateEntity) (entities : List EntityRecord)
        (graph_id project_id : String) (entity_uuid_map : List (String × String))
        (episode_id timestamp : String) (fresh : Nat → String) (cache : ResolverCache)
        (rel_store : List RelRecord) (relations : List ExtractedRelation) (u : String),
      (∀ n, fresh n ≠ u) →
      (∀ r ∈ rel_store, r.uuid = u →
        r.invalid_at = some timestamp ∧ r.expired_at = some timestamp) →
      ∀ r ∈ process_relations search entities graph_id project_id entity_uuid_map
          episode_id timestamp fresh cache rel_store relations,
        r.uuid = u → r.invalid_at = some timestamp ∧ r.expired_at = some timestamp)
    ∧ (∀ (store : List RelRecord) (x : String) (v : Option String) (now : String),
      ∀ r ∈ invalidate_edge store x v now, r.uuid = x →
        r.expired_at = r.invalid_at ∧ r.invalid_at ≠ none) := by
  refine ⟨?_, ?_, ?_⟩
  · intro entities rel_store existing su tu rn nf ts u hu r hr hru
    unfold detect_and_invalidate_with_edges at hr
    by_cases hex : existing = []
    · rw [if_pos hex] at hr
      subst hex
      simp [contradictedUuidsFor, ruleBased_detect_contradictions] at hu
    · rw [if_neg hex] at hr
      exact invFold_sets ts u _ rel_store hu r hr hru
  · intro search entities graph_id project_id entity_uuid_map episode_id timestamp fresh
      cache rel_store relations u hfresh hP
    have hfold := process_pairs_preserve search entities graph_id project_id entity_uuid_map
      episode_id timestamp fresh u timestamp hfresh rfl
      (relations.zip (List.range relations.length)) (rel_store, cache, []) hP
      (fun lr h => absurd h (List.not_mem_nil lr))
    simp only [process_relations]
    split
    · exact hfold.1
    · simp only [upsert_relations]
      exact upsert_pairs_preserve entities fresh timestamp u timestamp hfresh
        _ _ (fun p hp => hfold.2 p.1 (List.of_mem_zip hp).1) hfold.1
  · intro store x v now r hr hru
    simp only [invalidate_edge] at hr
    rcases List.mem_map.mp hr with ⟨s, hs, hmap⟩
    by_cases h : s.uuid = x
    · rw [if_pos h] at hmap
      rw [← hmap]
      exact ⟨rfl, by simp⟩
    · rw [if_neg h] at hmap
      rw [← hmap] at hru
      exact absurd hru h

/-- Entity record `Alice` for the C3 witness. -/
def cw3_entA : EntityRecord :=
  { uuid := "u_a", project_id := "p", graph_id := "g", name := "Alice",
    entity_type := "Person", summary := none, attributes_json := none,
    source_entity_types := some ["Person"], created_at := some "t0" }

/-- Entity record `Bluesky` for the C3 witness. -/
def cw3_entB : EntityRecord :=
  { uuid := "u_b", project_id := "p", graph_id := "g", name := "Bluesky",
    entity_type := "Product", summary := none, attributes_json := none,
    source_entity_types := some ["Product"], created_at := some "t0" }

/-- Active `LIKES` edge for the C3 witness. -/
def cw3_edge : RelRecord :=
  { uuid := "edge-1", project_id := "p", graph_id := "g", source_uuid := "u_a",
    target_uuid := "u_b", name := "LIKES", fact := "alice likes bluesky",
    fact_type := "LIKES", attributes_json := "\x7b\x7d", created_at := some "t0",
    valid_at := some "t0", invalid_at := none, expired_at := none, episodes := some [] }

/-- Witness for C3 at concrete inputs: a new `DISLIKES` edge marks the
stored `LIKES` edge invalid at the batch timestamp; the state survives a
further batch step; `invalidate_edge` pairs the two fields. -/
theorem claim_C3_contradiction_invalidation_witness :
    ({ cw3_edge with invalid_at := some "t1", expired_at := some "t1" } : RelRecord).invalid_at
        = some "t1"
      ∧ ({ cw3_edge with invalid_at := some "t1", expired_at := some "t1" } : RelRecord).expired_at
        = some "t1"
      ∧ (∀ r ∈ process_relations (fun _ _ => []) [cw3_entA, cw3_entB] "g" "p" cw2_map
          "ep2" "t1" (fun _ => "rel_x") []
          [{ cw3_edge with invalid_at := some "t1", expired_at := some "t1" }] [cw2_rel],
        r.uuid = "edge-1" → r.invalid_at = some "t1" ∧ r.expired_at = some "t1")
      ∧ (∀ r ∈ invalidate_edge [cw3_edge] "edge-1" none "t9", r.uuid = "edge-1" →
          r.expired_at = r.invalid_at ∧ r.invalid_at ≠ none) :=
  ⟨(claim_C3_contradiction_invalidation.1 [cw3_entA, cw3_entB] [cw3_edge] [cw3_edge]
      "u_a" "u_b" "DISLIKES" "no longer a fan" "t1" "edge-1" (by decide)
      { cw3_edge with invalid_at := some "t1", expired_at := some "t1" } (by decide)
      (by decide)).1,
    (claim_C3_contradiction_invalidation.1 [cw3_entA, cw3_entB] [cw3_edge] [cw3_edge]
      "u_a" "u_b" "DISLIKES" "no longer a fan" "t1" "edge-1" (by decide)
      { cw3_edge with invalid_at := some "t1", expired_at := some "t1" } (by decide)
      (by decide)).2,
    claim_C3_contradiction_invalidation.2.1 (fun _ _ => []) [cw3_entA, cw3_entB] "g" "p"
      cw2_map "ep2" "t1" (fun _ => "rel_x") []
      [{ cw3_edge with invalid_at := some "t1", expired_at := some "t1" }] [cw2_rel]
      "edge-1" (fun _ => (by decide : ("rel_x" : String) ≠ "edge-1")) (by decide),
    claim_C3_contradiction_invalidation.2.2 [cw3_edge] "edge-1" none "t9"⟩

/-- Claim C10 counterexample: with a one-character name (below
`MIN_NAME_LENGTH`) nothing is memoized - the short-name branch returns
before the cache is consulted - so a second `resolve` call with the same
graph and the same name but a different entity type returns a different
`ResolvedEntity` rather than the first call's cached result. -/
theorem claim_C10_counterexample :
    (resolver_resolve (fun _ _ => [])
        (resolver_resolve (fun _ _ => []) [] "g" "a" "Person" "").2
        "g" "a" "Organization" "").1
      ≠ (resolver_resolve (fun _ _ => []) [] "g" "a" "Person" "").1 := by
  intro h
  have h2 := congrArg ResolvedEntity.entity_type h
  rw [show (resolver_resolve (fun _ _ => [])
        (resolver_resolve (fun _ _ => []) [] "g" "a" "Person" "").2
        "g" "a" "Organization" "").1.entity_type = "Organization" from rfl,
    show (resolver_resolve (fun _ _ => []) [] "g" "a" "Person" "").1.entity_type
        = "Person" from rfl] at h2
  exact absurd h2 (by decide)

/-- Claim C10 (amended): for names whose trimmed length reaches
`MIN_NAME_LENGTH`, the resolver memoizes by `(graph_id, normalized name)`:
a second call with the same graph and an equal-after-normalization name
returns exactly the first call's `ResolvedEntity` - whatever its own
entity type, summary or attributes - and leaves the memo unchanged.
(Names shorter than `MIN_NAME_LENGTH` bypass the memo and are re-resolved
from their own arguments each time.) -/
theorem claim_C10_cache_memoization (search : String → String → List CandidateEntity)
    (cache : ResolverCache) (graph_id name1 name2 ty1 sum1 ty2 sum2 : String)
    (h1 : MIN_NAME_LENGTH ≤ (stripString name1).length)
    (h2 : MIN_NAME_LENGTH ≤ (stripString name2).length)
    (hnorm : normalize_string name1 = normalize_string name2) :
    resolver_resolve search (resolver_resolve search cache graph_id name1 ty1 sum1).2
        graph_id name2 ty2 sum2
      = ((resolver_resolve search cache graph_id name1 ty1 sum1).1,
         (resolver_resolve search cache graph_id name1 ty1 sum1).2) := by
  have hc1 : ¬(name1 = "" ∨ (stripString name1).length < MIN_NAME_LENGTH) := by
    push_neg
    refine ⟨fun h => ?_, h1⟩
    rw [h] at h1
    exact absurd h1 (by decide)
  have hc2 : ¬(name2 = "" ∨ (stripString name2).length < MIN_NAME_LENGTH) := by
    push_neg
    refine ⟨fun h => ?_, h2⟩
    rw [h] at h2
    exact absurd h2 (by decide)
  have hkey : resolverCacheKey graph_id name2 = resolverCacheKey graph_id name1 := by
    unfold resolverCacheKey
    rw [hnorm]
  simp only [resolver_resolve, if_neg hc1, if_neg hc2, hkey]
  cases hfind : cache.find? (fun p => p.1 == resolverCacheKey graph_id name1) with
  | some p => simp only [hfind]
  | none =>
    simp only [hfind]
    rw [List.find?_cons_of_pos _ (by simp)]

/-- Lowercasing never produces a backtick from a non-backtick character
(only uppercase letters change, and they map into `a`-`z`). -/
theorem toLower_ne_backtick (c : Char) (h : c ≠ backtick) : Char.toLower c ≠ backtick := by
  simp only [Char.toLower]
  split
  · rename_i hcond
    obtain ⟨h65, h90⟩ := hcond
    intro heq
    have h1 : 65 ≤ c.toNat := h65
    have h2 : c.toNat ≤ 90 := h90
    generalize hg : c.toNat = n at h1 h2 heq
    interval_cases n <;> exact absurd heq (by decide)
  · exact h

/-- A case-insensitive pattern starting with a backtick cannot match at a
non-backtick character. -/
theorem pm_false_of_head_backtick (ps : List Char) (c : Char) (l : List Char)
    (hc : c ≠ backtick) : prefixMatchCI (backtick :: ps) (c :: l) = false := by
  simp only [prefixMatchCI]
  rw [decide_eq_false (Ne.symm (toLower_ne_backtick c hc))]
  rfl

/-- Extending a backtick-free text by a closing fence cannot create a
case-insensitive match of a backtick-free pattern that was not already
there. -/
theorem pm_append_fence (ps : List Char) (hps : ∀ c ∈ ps, c ≠ backtick) :
    ∀ (mid : List Char), (∀ c ∈ mid, c ≠ backtick) →
      prefixMatchCI ps mid = false →
      prefixMatchCI ps (mid ++ "```".data) = false := by
  induction ps with
  | nil => intro mid _ hfalse; simp [prefixMatchCI] at hfalse
  | cons p ps' ih =>
    intro mid hmid hfalse
    cases mid with
    | nil =>
      rw [List.nil_append]
      rw [show ("```".data : List Char) = backtick :: "``".data from by decide]
      simp only [prefixMatchCI]
      rw [decide_eq_false (fun hpb : p = Char.toLower backtick =>
        hps p (List.mem_cons_self p ps') (by rw [hpb]; decide))]
      rfl
    | cons c mid' =>
      rw [List.cons_append]
      simp only [prefixMatchCI] at hfalse ⊢
      rcases Bool.and_eq_false_iff.mp hfalse with h | h
      · rw [h]
        rfl
      · rw [ih (fun x hx => hps x (List.mem_cons_of_mem p hx)) mid'
          (fun x hx => hmid x (List.mem_cons_of_mem c hx)) h]
        simp

/-- A pattern matching at the head is found at position 0. -/
theorem findCI_of_startsWith (pat s : List Char) (hpat : pat ≠ [])
    (h : startsWithCI pat s = true) : findCI pat s = some 0 := by
  cases s with
  | nil =>
    cases pat with
    | nil => exact absurd rfl hpat
    | cons p ps => simp [startsWithCI, prefixMatchCI] at h
  | cons c rest =>
    simp only [findCI]
    rw [if_pos h]

/-- The closing fence of a backtick-free capture is found exactly at its
end. -/
theorem findCI_close (mid : List Char) (hmid : ∀ c ∈ mid, c ≠ backtick) :
    findCI "```".data (mid ++ "```".data) = some mid.length := by
  induction mid with
  | nil => decide
  | cons c rest ih =>
    have hc := hmid c (List.mem_cons_self c rest)
    show findCI "```".data (c :: (rest ++ "```".data)) = some (c :: rest).length
    have hsw : startsWithCI "```".data (c :: (rest ++ "```".data)) = false := by
      rw [show ("```".data : List Char) = backtick :: "``".data from by decide]
      exact pm_false_of_head_backtick "``".data c _ hc
    rw [findCI, if_neg (by simp [hsw]), ih (fun x hx => hmid x (List.mem_cons_of_mem c hx))]
    rfl

/-- No ```` ```json ```` opener occurs in a backtick-free text followed by
a closing fence. -/
theorem findCI_jf_after (mid : List Char) (hmid : ∀ c ∈ mid, c ≠ backtick) :
    findCI "```json".data (mid ++ "```".data) = none := by
  induction mid with
  | nil => decide
  | cons c rest ih =>
    have hc := hmid c (List.mem_cons_self c rest)
    show findCI "```json".data (c :: (rest ++ "```".data)) = none
    have hsw : startsWithCI "```json".data (c :: (rest ++ "```".data)) = false := by
      rw [show ("```json".data : List Char) = backtick :: "``json".data from by decide]
      exact pm_false_of_head_backtick "``json".data c _ hc
    rw [findCI, if_neg (by simp [hsw]), ih (fun x hx => hmid x (List.mem_cons_of_mem c hx))]
    rfl

/-- No ```` ```json ```` opener occurs anywhere in a plain fenced block
whose backtick-free capture does not itself start (case-insensitively)
with `json`. -/
theorem findCI_jf_btmidbt (mid : List Char) (hmid : ∀ c ∈ mid, c ≠ backtick)
    (hjson : startsWithCI "json".data mid = false) :
    findCI "```json".data ("```".data ++ (mid ++ "```".data)) = none := by
  have h0 : startsWithCI "```json".data
      (backtick :: backtick :: backtick :: (mid ++ "```".data)) = false := by
    show prefixMatchCI "json".data (mid ++ "```".data) = false
    exact pm_append_fence "json".data (by decide) mid hmid hjson
  have h1 : startsWithCI "```json".data
      (backtick :: backtick :: (mid ++ "```".data)) = false := by
    show prefixMatchCI "`json".data (mid ++ "```".data) = false
    cases mid with
    | nil => decide
    | cons c rest =>
      rw [List.cons_append]
      rw [show ("`json".data : List Char) = backtick :: "json".data from by decide]
      exact pm_false_of_head_backtick "json".data c _ (hmid c (List.mem_cons_self c rest))
  have h2 : startsWithCI "```json".data (backtick :: (mid ++ "```".data)) = false := by
    show prefixMatchCI "``json".data (mid ++ "```".data) = false
    cases mid with
    | nil => decide
    | cons c rest =>
      rw [List.cons_append]
      rw [show ("``json".data : List Char) = backtick :: "`json".data from by decide]
      exact pm_false_of_head_backtick "`json".data c _ (hmid c (List.mem_cons_self c rest))
  show findCI "```json".data (backtick :: backtick :: backtick :: (mid ++ "```".data)) = none
  rw [findCI, if_neg (by simp [h0]), findCI, if_neg (by simp [h1]),
    findCI, if_neg (by simp [h2]), findCI_jf_after mid hmid]
  rfl

/-- A lowercase pattern case-insensitively matches itself followed by
anything. -/
theorem pm_self_append (pat : List Char) (hlow : ∀ c ∈ pat, Char.toLower c = c) :
    ∀ rest, prefixMatchCI pat (pat ++ rest) = true := by
  induction pat with
  | nil => intro rest; rfl
  | cons p ps ih =>
    intro rest
    show (decide (p = Char.toLower p) && prefixMatchCI ps (ps ++ rest)) = true
    rw [hlow p (List.mem_cons_self p ps),
      ih (fun c hc => hlow c (List.mem_cons_of_mem p hc)) rest]
    simp

/-- A fence delimited by a lowercase opener captures exactly the stripped
inner text. -/
theorem tryFence_head (openPat mid : List Char) (hlow : ∀ c ∈ openPat, Char.toLower c = c)
    (hne : openPat ≠ []) (hmid : ∀ c ∈ mid, c ≠ backtick) :
    tryFence openPat (openPat ++ (mid ++ "```".data)) = some (stripChars mid) := by
  have hfind : findCI openPat (openPat ++ (mid ++ "```".data)) = some 0 :=
    findCI_of_startsWith _ _ hne (pm_self_append openPat hlow _)
  simp only [tryFence, hfind, Nat.zero_add, List.drop_left, findCI_close mid hmid,
    List.take_left]

/-- A nonempty character list never makes the empty string. -/
theorem stringMk_cons_ne (c : Char) (l : List Char) : String.mk (c :: l) ≠ "" := by
  intro h
  exact List.cons_ne_nil c l (congrArg String.data h)

/-- Stripping keeps at least the first character when it is not
whitespace. -/
theorem stripChars_cons_ne_nil (c : Char) (l : List Char) (hc : c.isWhitespace = false) :
    stripChars (c :: l) ≠ [] := by
  intro h
  simp only [stripChars] at h
  rw [List.dropWhile_cons] at h
  rw [hc] at h
  simp only [Bool.false_eq_true, if_false] at h
  have h2 : (c :: l).reverse.dropWhile Char.isWhitespace = [] := by
    have := congrArg List.reverse h
    simpa using this
  have h3 := (List.dropWhile_eq_nil_iff.mp h2) c (List.mem_reverse.mpr (List.mem_cons_self c l))
  rw [hc] at h3
  exact absurd h3 (by decide)

/-- A string starting with a backtick does not strip to empty. -/
theorem stripString_bt_ne (l : List Char) :
    stripString (String.mk (backtick :: l)) ≠ "" := by
  intro h
  exact stripChars_cons_ne_nil backtick l (by decide) (congrArg String.data h)

/-- Extraction of a ```` ```json ```` fenced block whose capture parses:
the stripped capture is returned. -/
theorem extract_jsonfence (mid : List Char) (hmid : ∀ c ∈ mid, c ≠ backtick)
    (hj : (jsonParse (String.mk (stripChars mid))).isSome = true) :
    extract_json_from_response (String.mk ("```json".data ++ (mid ++ "```".data)))
      = String.mk (stripChars mid) := by
  have hne : String.mk ("```json".data ++ (mid ++ "```".data)) ≠ "" :=
    stringMk_cons_ne backtick ("``json".data ++ (mid ++ "```".data))
  have hdata : (String.mk ("```json".data ++ (mid ++ "```".data))).data
      = "```json".data ++ (mid ++ "```".data) := rfl
  have htf : tryFence "```json".data ("```json".data ++ (mid ++ "```".data))
      = some (stripChars mid) := tryFence_head _ mid (by decide) (by decide) hmid
  simp only [extract_json_from_response, if_neg hne, hdata, htf, hj, if_true]

/-- Extraction of a plain ```` ``` ```` fenced block (capture not starting
with `json`) whose capture parses: the stripped capture is returned. -/
theorem extract_fence (mid : List Char) (hmid : ∀ c ∈ mid, c ≠ backtick)
    (hjson : startsWithCI "json".data mid = false)
    (hj : (jsonParse (String.mk (stripChars mid))).isSome = true) :
    extract_json_from_response (String.mk ("```".data ++ (mid ++ "```".data)))
      = String.mk (stripChars mid) := by
  have hne : String.mk ("```".data ++ (mid ++ "```".data)) ≠ "" :=
    stringMk_cons_ne backtick ("``".data ++ (mid ++ "```".data))
  have hdata : (String.mk ("```".data ++ (mid ++ "```".data))).data
      = "```".data ++ (mid ++ "```".data) := rfl
  have hjf : tryFence "```json".data ("```".data ++ (mid ++ "```".data)) = none := by
    simp only [tryFence, findCI_jf_btmidbt mid hmid hjson]
  have htf : tryFence "```".data ("```".data ++ (mid ++ "```".data))
      = some (stripChars mid) := tryFence_head _ mid (by decide) (by decide) hmid
  simp only [extract_json_from_response, if_neg hne, hdata, hjf, htf, hj, if_true]

/-- C5: `chat_json` fails with `EmptyResponse` whenever the response text
is empty or whitespace-only; when the body is wrapped in a fenced code
block (```` ```json ... ``` ```` or ```` ``` ... ``` ````) whose inner
text parses as JSON, it returns the parsed inner JSON; and when the
extracted text is not valid JSON it fails with the JSON-parse error
instead of returning a value. -/
theorem claim_C5_chat_json_behavior :
    (∀ s : String, stripString s = "" → chat_json s = ChatJsonOutcome.emptyResponse) ∧
    (∀ (mid : List Char) (j : JsonVal), (∀ c ∈ mid, c ≠ backtick) →
      jsonParse (String.mk (stripChars mid)) = some j →
      chat_json (String.mk ("```json".data ++ (mid ++ "```".data)))
        = ChatJsonOutcome.parsed j) ∧
    (∀ (mid : List Char) (j : JsonVal), (∀ c ∈ mid, c ≠ backtick) →
      startsWithCI "json".data mid = false →
      jsonParse (String.mk (stripChars mid)) = some j →
      chat_json (String.mk ("```".data ++ (mid ++ "```".data)))
        = ChatJsonOutcome.parsed j) ∧
    (∀ s : String, stripString s ≠ "" →
      jsonParse (extract_json_from_response s) = none →
      chat_json s = ChatJsonOutcome.malformedJson) := by
  refine ⟨?_, ?_, ?_, ?_⟩
  · intro s h
    simp only [chat_json]
    rw [if_pos (Or.inr h)]
  · intro mid j hmid hp
    have hc1 : String.mk ("```json".data ++ (mid ++ "```".data)) ≠ "" :=
      stringMk_cons_ne backtick ("``json".data ++ (mid ++ "```".data))
    have hc2 : stripString (String.mk ("```json".data ++ (mid ++ "```".data))) ≠ "" :=
      stripString_bt_ne ("``json".data ++ (mid ++ "```".data))
    have hext := extract_jsonfence mid hmid (by rw [hp]; rfl)
    simp only [chat_json]
    rw [if_neg (not_or.mpr ⟨hc1, hc2⟩), hext, hp]
  · intro mid j hmid hjson hp
    have hc1 : String.mk ("```".data ++ (mid ++ "```".data)) ≠ "" :=
      stringMk_cons_ne backtick ("``".data ++ (mid ++ "```".data))
    have hc2 : stripString (String.mk ("```".data ++ (mid ++ "```".data))) ≠ "" :=
      stripString_bt_ne ("``".data ++ (mid ++ "```".data))
    have hext := extract_fence mid hmid hjson (by rw [hp]; rfl)
    simp only [chat_json]
    rw [if_neg (not_or.mpr ⟨hc1, hc2⟩), hext, hp]
  · intro s h1 h2
    have hcond : ¬(s = "" ∨ stripString s = "") := by
      rintro (he | he)
      · exact h1 (by rw [he]; rfl)
      · exact h1 he
    simp only [chat_json]
    rw [if_neg hcond, h2]

/-- Concrete instance of C5: a whitespace-only response, a ```` ```json ````
block holding an object, a plain ```` ``` ```` block holding an array, and
an unfenced non-JSON response. -/
theorem claim_C5_chat_json_behavior_witness :
    chat_json " " = ChatJsonOutcome.emptyResponse ∧
    chat_json (String.mk ("```json".data ++ ("\x7b\x7d".data ++ "```".data)))
      = ChatJsonOutcome.parsed (JsonVal.jobj []) ∧
    chat_json (String.mk ("```".data ++ ("[1]".data ++ "```".data)))
      = ChatJsonOutcome.parsed (JsonVal.jarr [JsonVal.jnum "1"]) ∧
    chat_json "not json" = ChatJsonOutcome.malformedJson :=
  ⟨claim_C5_chat_json_behavior.1 " " (by decide),
   claim_C5_chat_json_behavior.2.1 "\x7b\x7d".data (JsonVal.jobj []) (by decide) rfl,
   claim_C5_chat_json_behavior.2.2.1 "[1]".data (JsonVal.jarr [JsonVal.jnum "1"])
     (by decide) (by decide) rfl,
   claim_C5_chat_json_behavior.2.2.2 "not json" (by decide) rfl⟩

/-- Concrete instance of amended C10: `"Alice"` and `" ALICE "` share a
normalized name, so the second call - even with a different entity type -
returns the first call's cached result. -/
theorem claim_C10_cache_memoization_witness :
    MIN_NAME_LENGTH ≤ (stripString "Alice").length ∧
    MIN_NAME_LENGTH ≤ (stripString " ALICE ").length ∧
    normalize_string "Alice" = normalize_string " ALICE " ∧
    resolver_resolve (fun _ _ => [])
        (resolver_resolve (fun _ _ => []) [] "g" "Alice" "Person" "").2
        "g" " ALICE " "Organization" "org summary"
      = ((resolver_resolve (fun _ _ => []) [] "g" "Alice" "Person" "").1,
         (resolver_resolve (fun _ _ => []) [] "g" "Alice" "Person" "").2) :=
  ⟨by decide, by decide, by decide,
   claim_C10_cache_memoization (fun _ _ => []) [] "g" "Alice" " ALICE "
     "Person" "" "Organization" "org summary" (by decide) (by decide) (by decide)⟩
